import Mathlib

/-!
A shallow embedding of the trading-engine-simulator matching core
(src/types.h, src/tick_table.h, src/object_pool.h, src/stop_manager.h,
src/order_book.h, src/order_book.cpp) and proofs about the claims of the
specification.

Modelling conventions:
* C++ `Price`/`Quantity` (int64_t) are embedded as `Int`.  All arithmetic the
  relevant code performs stays far away from the int64 boundaries on the
  inputs we reason about; `size_t` counters that the code can underflow
  (the pool's `allocated_count_`) are embedded as `Nat` with explicit
  `% 2^64` wrap-around.
* Pool pointers (`Order*`) are embedded as `Nat` slot names.  The contents of
  the slots live in an association list `store : List (Nat × Order)`;
  every dereference `p->field` in the C++ goes through the store, so pointer
  aliasing in the source is preserved exactly.
* `std::map<Price, T, cmp>` is embedded as an association list sorted by the
  comparator (bids descending, asks ascending, stop books ascending), which is
  the iteration order of the C++ map.  `upper_bound`/`lower_bound` ranges on
  these sorted lists are `takeWhile`/`dropWhile` spans.
* Wall-clock timestamps are not modelled (orders carry `timestamp = 0`); no
  claim depends on them.
-/

/-- `Side` from src/types.h. -/
inductive Side where
  | BUY
  | SELL
deriving DecidableEq, Repr

/-- `OrderType` from src/types.h. -/
inductive OrderType where
  | GTC
  | IOC
  | FOK
  | MARKET
  | STOP_LOSS
  | ICEBERG
deriving DecidableEq, Repr

/-- `Order` from src/types.h (timestamp kept as a field but always 0 in the
model; the C++ fills it from the wall clock and nothing reads it for control
flow). -/
structure Order where
  id : Nat
  side : Side
  price : Int
  stop_price : Int
  quantity : Int
  remaining : Int
  display : Int
  display_size : Int
  type : OrderType
  timestamp : Int
  ownerID : Nat
  is_triggered : Bool
  parent_id : Nat
  is_market_maker : Bool
  session_id : Nat
deriving DecidableEq, Repr

/-- The zeroed `Order()` default state.  The C++ default constructor
initialises every field shown except `is_market_maker` and `session_id`
(which it leaves indeterminate); the spec's "zeroed state" reading takes
them as `false` / `0`. -/
def zeroedOrder : Order :=
  { id := 0, side := Side.BUY, price := 0, stop_price := 0, quantity := 0,
    remaining := 0, display := 0, display_size := 0, type := OrderType.GTC,
    timestamp := 0, ownerID := 0, is_triggered := false, parent_id := 0,
    is_market_maker := false, session_id := 0 }

/-- The 10-argument `Order` constructor from src/types.h: `remaining`
starts at the full quantity, `display` at the caller's `disp`.  The C++
constructor leaves `is_market_maker` uninitialised; the model takes `false`. -/
def mkOrder (id : Nat) (side : Side) (price stop_price qty disp display_size : Int)
    (type : OrderType) (ownerID : Nat) (sessionID : Nat) : Order :=
  { id := id, side := side, price := price, stop_price := stop_price,
    quantity := qty, remaining := qty, display := disp,
    display_size := display_size, type := type, timestamp := 0,
    ownerID := ownerID, is_triggered := false, parent_id := 0,
    is_market_maker := false, session_id := sessionID }

/-- A trade as built by `OrderBook::execute_trade` (src/order_book.h).
Besides the `Trade` fields (`buy_id`, `sell_id`, `price`, `quantity`;
timestamp not modelled), the model keeps the `buyer_id` / `seller_id`
owner ids that `execute_trade` computes and reports to the risk manager. -/
structure ExecTrade where
  buy_id : Nat
  sell_id : Nat
  price : Int
  quantity : Int
  buyOwner : Nat
  sellOwner : Nat
deriving DecidableEq, Repr

/-- `OrderBook::execute_trade` (src/order_book.h lines 93-109). -/
def execute_trade (aggressive passive : Order) (qty : Int) : ExecTrade :=
  { buy_id := if aggressive.side = Side.BUY then aggressive.id else passive.id,
    sell_id := if aggressive.side = Side.SELL then aggressive.id else passive.id,
    price := passive.price,
    quantity := qty,
    buyOwner := if aggressive.side = Side.BUY then aggressive.ownerID else passive.ownerID,
    sellOwner := if aggressive.side = Side.SELL then aggressive.ownerID else passive.ownerID }

/-! ## Tick-size table (src/tick_table.h) -/

/-- A `TickRule` from src/tick_table.h. -/
structure TickRule where
  min_price : Int
  max_price : Int
  tick_size : Int
deriving DecidableEq, Repr

/-- `LLONG_MAX`, the upper bound of the last default band. -/
def LLONG_MAX : Int := 9223372036854775807

/-- The rules installed by the `TickSizeTable` constructor, in the sorted
order the vector holds them. -/
def defaultRules : List TickRule :=
  [⟨1, 99, 1⟩, ⟨100, 999, 1⟩, ⟨1000, 4999, 1⟩, ⟨5000, 9999, 1⟩,
   ⟨10000, 99999, 1⟩, ⟨100000, 499999, 5⟩, ⟨500000, 999999, 10⟩,
   ⟨1000000, LLONG_MAX, 100⟩]

/-- The loop body of `TickSizeTable::round_to_tick`: first rule whose band
contains the price wins; no band gives 0. -/
def roundLoop (rules : List TickRule) (price : Int) : Int :=
  match rules with
  | [] => 0
  | r :: rest =>
    if r.min_price ≤ price ∧ r.max_price ≥ price then
      ((price + r.tick_size / 2) / r.tick_size) * r.tick_size
    else roundLoop rest price

/-- `TickSizeTable::round_to_tick` with the default rule table. -/
def round_to_tick (price : Int) : Int :=
  if price ≤ 0 then 0 else roundLoop defaultRules price

/-- `TickSizeTable::is_valid_price`. -/
def is_valid_price (price : Int) : Bool :=
  price == round_to_tick price

example : round_to_tick 100001 = 100000 := by decide
example : round_to_tick 100003 = 100005 := by decide
example : round_to_tick 999999 = 1000000 := by decide
example : round_to_tick 57 = 57 := by decide
example : round_to_tick (-3) = 0 := by decide

/-! ## Association-list helpers

`unordered_map` / sorted `map` nodes are embedded as `List (key × value)`;
these helpers mirror the single container operations the C++ performs. -/

/-- `find` on an unordered/ordered map: first entry with the key. -/
def assocFind (l : List (Nat × Nat)) (k : Nat) : Option Nat :=
  match l.find? (fun e => e.1 == k) with
  | some e => some e.2
  | none => none

/-- `m[k] = v`: overwrite the entry if the key is present, else insert. -/
def assocSet (l : List (Nat × Nat)) (k v : Nat) : List (Nat × Nat) :=
  match l with
  | [] => [(k, v)]
  | e :: rest => if e.1 = k then (k, v) :: rest else e :: assocSet rest k v

/-- `m.erase(k)`: remove the (unique) entry with the key. -/
def assocErase (l : List (Nat × Nat)) (k : Nat) : List (Nat × Nat) :=
  match l with
  | [] => []
  | e :: rest => if e.1 = k then rest else e :: assocErase rest k

/-- Dereference a slot in the order store; reading a never-written slot
yields the zeroed order (pool slots start default-constructed). -/
def storeGet (store : List (Nat × Order)) (slot : Nat) : Order :=
  match store.find? (fun e => e.1 == slot) with
  | some e => e.2
  | none => zeroedOrder

/-- Write through a slot pointer (`*ptr = o` / field assignment). -/
def storeSet (store : List (Nat × Order)) (slot : Nat) (o : Order) :
    List (Nat × Order) :=
  match store with
  | [] => [(slot, o)]
  | e :: rest => if e.1 = slot then (slot, o) :: rest else e :: storeSet rest slot o

/-! ## Object pool (src/object_pool.h)

Slots are `Nat` names.  `valid` is `valid_objects_`, `available` the free
stack (head = top), `allocated` the `size_t allocated_count_` kept modulo
`2^64`, `nextFresh` the supply of pointers `make_unique` would return. -/

/-- `size_t` modulus. -/
def WORD : Nat := 18446744073709551616

structure Pool where
  valid : List Nat
  available : List Nat
  allocated : Nat
  nextFresh : Nat
deriving DecidableEq, Repr

/-- `ObjectPool::acquire` (src/object_pool.h lines 28-50): pop the free
stack, or grow the pool with a fresh slot when empty.  `acquire` never
returns null (`make_unique` throws on exhaustion), so the result is a
plain slot. -/
def Pool.acquire (p : Pool) : Nat × Pool :=
  match p.available with
  | [] =>
    (p.nextFresh,
     { p with valid := p.nextFresh :: p.valid,
              allocated := (p.allocated + 1) % WORD,
              nextFresh := p.nextFresh + 1 })
  | ptr :: rest =>
    (ptr, { p with available := rest, allocated := (p.allocated + 1) % WORD })

/-- `ObjectPool<Order>::reset_order` (src/object_pool.h lines 102-116):
note it does not touch `side`, `type`, or `is_market_maker`. -/
def reset_order (o : Order) : Order :=
  { o with id := 0, price := 0, stop_price := 0, quantity := 0,
           remaining := 0, display := 0, display_size := 0, timestamp := 0,
           ownerID := 0, is_triggered := false, parent_id := 0,
           session_id := 0 }

/-- The bookkeeping part of `ObjectPool::release` once validation passed:
push on the free stack and decrement the `size_t` counter (with wrap). -/
def Pool.pushFree (p : Pool) (slot : Nat) : Pool :=
  { p with available := slot :: p.available,
           allocated := (p.allocated + (WORD - 1)) % WORD }

/-- `ObjectPool::release` (src/object_pool.h lines 52-68) viewed on the pool
bookkeeping alone (`T = Trade`-style; the `Order` instantiation additionally
zeroes the slot, see `releaseOrder` below).  `none` models a null pointer. -/
def Pool.release (p : Pool) (obj : Option Nat) : Pool :=
  match obj with
  | none => p
  | some ptr => if p.valid.contains ptr then p.pushFree ptr else p

/-! ## Stop-order manager (src/stop_manager.h)

`buy_stops_` / `sell_stops_` are `map<Price, vector<Order*>>`, embedded as
association lists sorted by ascending price (the map's iteration order);
each bucket is the arrival-ordered vector of slots.  `stop_lookup_` maps
order ids to slots. -/

structure StopState where
  buy_stops : List (Int × List Nat)
  sell_stops : List (Int × List Nat)
  stop_lookup : List (Nat × Nat)
deriving DecidableEq, Repr

/-- Insert a slot at the tail of the bucket for `key` in an
ascending-sorted stop book (`map::operator[]` + `push_back`). -/
def stopBookAdd (book : List (Int × List Nat)) (key : Int) (slot : Nat) :
    List (Int × List Nat) :=
  match book with
  | [] => [(key, [slot])]
  | e :: rest =>
    if e.1 = key then (key, e.2 ++ [slot]) :: rest
    else if key < e.1 then (key, [slot]) :: e :: rest
    else e :: stopBookAdd rest key slot

/-- Remove a bucket key from a stop book (`map::erase(key)`). -/
def stopBookEraseKey (book : List (Int × List Nat)) (key : Int) :
    List (Int × List Nat) :=
  match book with
  | [] => []
  | e :: rest => if e.1 = key then rest else e :: stopBookEraseKey rest key

/-- Replace the bucket stored at `key` (the map node is mutated in place in
the C++). -/
def stopBookSet (book : List (Int × List Nat)) (key : Int) (bucket : List Nat) :
    List (Int × List Nat) :=
  match book with
  | [] => []
  | e :: rest => if e.1 = key then (key, bucket) :: rest else e :: stopBookSet rest key bucket

/-- `StopOrderManager::add_stop_order` (src/stop_manager.h lines 12-26).
The order fields are read through the store. -/
def add_stop_order (store : List (Nat × Order)) (st : StopState) (slot : Nat) :
    StopState :=
  let o := storeGet store slot
  if o.type ≠ OrderType.STOP_LOSS then st
  else
    let st :=
      if o.side = Side.BUY then
        { st with buy_stops := stopBookAdd st.buy_stops o.stop_price slot }
      else
        { st with sell_stops := stopBookAdd st.sell_stops o.stop_price slot }
    { st with stop_lookup := assocSet st.stop_lookup o.id slot }

/-- Bucket lookup with `operator[]` semantics (creation not needed here:
`remove_stop_order` only reads the bucket of a present order, but the
`getD []` default mirrors the empty bucket `operator[]` would create). -/
def stopBucketAt (book : List (Int × List Nat)) (key : Int) : List Nat :=
  match book.find? (fun e => e.1 == key) with
  | some e => e.2
  | none => []

/-- `StopOrderManager::remove_stop_order` (src/stop_manager.h lines 28-57). -/
def remove_stop_order (store : List (Nat × Order)) (st : StopState)
    (order_id : Nat) : Bool × StopState :=
  match assocFind st.stop_lookup order_id with
  | none => (false, st)
  | some slot =>
    let o := storeGet store slot
    let bucket := if o.side = Side.BUY then stopBucketAt st.buy_stops o.stop_price
                  else stopBucketAt st.sell_stops o.stop_price
    let bucket := bucket.erase slot
    let st :=
      if o.side = Side.BUY then
        { st with buy_stops := stopBookSet st.buy_stops o.stop_price bucket }
      else
        { st with sell_stops := stopBookSet st.sell_stops o.stop_price bucket }
    let st :=
      if bucket.isEmpty then
        if o.side = Side.BUY then
          { st with buy_stops := stopBookEraseKey st.buy_stops o.stop_price }
        else
          { st with sell_stops := stopBookEraseKey st.sell_stops o.stop_price }
      else st
    (true, { st with stop_lookup := assocErase st.stop_lookup order_id })

/-- `StopOrderManager::check_triggered_stops` (src/stop_manager.h lines
59-86).  On the ascending key lists, the `begin..upper_bound(last)` range is
the `takeWhile (key ≤ last)` prefix and the `lower_bound(last)..end` range
the `dropWhile (key < last)` suffix.  Buy buckets are emitted first (keys
ascending), then sell buckets -- also in ascending key order, because the
C++ iterates the sell map forward from `lower_bound`.  Every emitted slot's
id is erased from `stop_lookup_`, and the fired ranges are erased from the
books. -/
def check_triggered_stops (store : List (Nat × Order)) (st : StopState)
    (last_trade_price : Int) : List Nat × StopState :=
  let buyFire := st.buy_stops.takeWhile (fun e => e.1 ≤ last_trade_price)
  let buyKeep := st.buy_stops.dropWhile (fun e => e.1 ≤ last_trade_price)
  let sellKeep := st.sell_stops.takeWhile (fun e => e.1 < last_trade_price)
  let sellFire := st.sell_stops.dropWhile (fun e => e.1 < last_trade_price)
  let fired := (buyFire.map (fun e => e.2)).flatten ++ (sellFire.map (fun e => e.2)).flatten
  let lookup := fired.foldl (fun lk slot => assocErase lk (storeGet store slot).id)
    st.stop_lookup
  (fired, { buy_stops := buyKeep, sell_stops := sellKeep, stop_lookup := lookup })

/-! ## Price levels and the book (src/order_book.h, src/order_book.cpp)

Levels hold slots; bids are an association list sorted descending by price
(`map<.., greater<Price>>` iteration order), asks ascending. -/

structure PriceLevel where
  mm_orders : List Nat
  regular_orders : List Nat
deriving DecidableEq, Repr

/-- A default-constructed (empty) level. -/
def levelDefault : PriceLevel := ⟨[], []⟩

/-- `PriceLevel::front` (mm queue first). `none` only on an empty level,
where the C++ would read an empty deque; callers guard on `empty`. -/
def PriceLevel.front? (l : PriceLevel) : Option Nat :=
  if l.mm_orders.isEmpty then l.regular_orders.head? else l.mm_orders.head?

/-- `PriceLevel::pop_front`. -/
def PriceLevel.pop_front (l : PriceLevel) : PriceLevel :=
  if l.mm_orders.isEmpty then { l with regular_orders := l.regular_orders.tail }
  else { l with mm_orders := l.mm_orders.tail }

/-- `PriceLevel::add_order`: append to the sublist selected by the order's
`is_market_maker`. -/
def PriceLevel.add_order (l : PriceLevel) (o : Order) (slot : Nat) : PriceLevel :=
  if o.is_market_maker then { l with mm_orders := l.mm_orders ++ [slot] }
  else { l with regular_orders := l.regular_orders ++ [slot] }

/-- `PriceLevel::empty`. -/
def PriceLevel.empty (l : PriceLevel) : Bool :=
  l.mm_orders.isEmpty && l.regular_orders.isEmpty

/-- `PriceLevel::erase`: drop the first occurrence from `mm_orders` if
present there, else from `regular_orders`. -/
def PriceLevel.eraseSlot (l : PriceLevel) (slot : Nat) : PriceLevel :=
  if l.mm_orders.contains slot then { l with mm_orders := l.mm_orders.erase slot }
  else { l with regular_orders := l.regular_orders.erase slot }

/-- Map lookup (`find`) in a price-level book. -/
def levelFind (book : List (Int × PriceLevel)) (p : Int) : Option PriceLevel :=
  match book.find? (fun e => e.1 == p) with
  | some e => some e.2
  | none => none

/-- Overwrite the level node stored at a present key (mutation through a
`map` reference); no-op if the key is absent. -/
def levelSet (book : List (Int × PriceLevel)) (p : Int) (lvl : PriceLevel) :
    List (Int × PriceLevel) :=
  match book with
  | [] => []
  | e :: rest => if e.1 = p then (p, lvl) :: rest else e :: levelSet rest p lvl

/-- `map::erase(key)` on a book. -/
def levelEraseKey (book : List (Int × PriceLevel)) (p : Int) :
    List (Int × PriceLevel) :=
  match book with
  | [] => []
  | e :: rest => if e.1 = p then rest else e :: levelEraseKey rest p

/-- Comparator-sorted `operator[]` returning the book with the key present
(inserting a default level at its sorted position when absent); `before a b`
is the map comparator (bids `a > b`, asks `a < b`). -/
def bookEnsure (before : Int → Int → Bool) (book : List (Int × PriceLevel))
    (p : Int) : List (Int × PriceLevel) :=
  match book with
  | [] => [(p, levelDefault)]
  | e :: rest =>
    if e.1 = p then e :: rest
    else if before p e.1 then (p, levelDefault) :: e :: rest
    else e :: bookEnsure before rest p

/-- `book[p].add_order(order)`: `operator[]` then append. -/
def bookAdd (before : Int → Int → Bool) (book : List (Int × PriceLevel))
    (p : Int) (o : Order) (slot : Nat) : List (Int × PriceLevel) :=
  match book with
  | [] => [(p, levelDefault.add_order o slot)]
  | e :: rest =>
    if e.1 = p then (p, e.2.add_order o slot) :: rest
    else if before p e.1 then (p, levelDefault.add_order o slot) :: e :: rest
    else e :: bookAdd before rest p o slot

/-- The bids comparator (`greater<Price>`: higher price first). -/
def bidBefore (a b : Int) : Bool := b < a

/-- The asks comparator (`less<Price>`: lower price first). -/
def askBefore (a b : Int) : Bool := a < b

/-- `OrderBook::cleanup_empty_level`. -/
def cleanup_empty_level (book : List (Int × PriceLevel)) (p : Int) :
    List (Int × PriceLevel) :=
  match levelFind book p with
  | some lvl => if lvl.empty then levelEraseKey book p else book
  | none => book

/-- `OrderBook::Stats`, restricted to the counters the matching code
touches (`totalIOC_rejected` is declared but never written). -/
structure Stats where
  totalOrders : Nat
  totalTrades : Nat
  totalVolumes : Int
  totalCancelledOrders : Nat
  totalStopTriggered : Nat
  totalRiskRejected : Nat
deriving DecidableEq, Repr

/-- The whole `OrderBook` state (books, id index, order arena, stop manager,
cascade bookkeeping, stats).  The trade pool and risk-manager state are not
modelled: no claim reads them and they do not feed back into matching
control flow (the risk decision itself enters `add_order` as an explicit
boolean, see `add_order` below). -/
structure BookState where
  bids : List (Int × PriceLevel)
  asks : List (Int × PriceLevel)
  orders : List (Nat × Nat)
  store : List (Nat × Order)
  pool : Pool
  stops : StopState
  processing_stops : List Nat
  stop_cascade_depth : Int
  stats : Stats
deriving DecidableEq, Repr

/-- `OrderBook::MAX_CASCADE_DEPTH` (src/order_book.h line 91). -/
def MAX_CASCADE_DEPTH : Int := 3

/-- The opposite-side book for an aggressor (`asks_` for a buy). -/
def oppBook (st : BookState) (isBuy : Bool) : List (Int × PriceLevel) :=
  if isBuy then st.asks else st.bids

/-- Write the opposite-side book back. -/
def setOppBook (st : BookState) (isBuy : Bool) (b : List (Int × PriceLevel)) :
    BookState :=
  if isBuy then { st with asks := b } else { st with bids := b }

/-- `ObjectPool<Order>::release` as invoked by the book: validate, zero the
slot through `reset_order`, push it on the free stack, decrement the
(wrapping) allocated count. -/
def releaseOrder (st : BookState) (slot : Nat) : BookState :=
  if st.pool.valid.contains slot then
    { st with store := storeSet st.store slot (reset_order (storeGet st.store slot)),
              pool := st.pool.pushFree slot }
  else st

/-- `OrderBook::cancel_order` (src/order_book.cpp lines 410-457).  Note the
level lookup keys on `order->price` — the normalized price field — while
resting insertion (see `add_order`) keys levels on the raw input price. -/
def cancel_order (st : BookState) (id : Nat) : Bool × BookState :=
  match assocFind st.orders id with
  | none => (false, st)
  | some slot =>
    let o := storeGet st.store slot
    let st :=
      if o.type = OrderType.STOP_LOSS then
        { st with stops := (remove_stop_order st.store st.stops id).2 }
      else if o.side = Side.BUY then
        match levelFind st.bids o.price with
        | none => st
        | some lvl =>
          let lvl := lvl.eraseSlot slot
          if lvl.empty then { st with bids := levelEraseKey st.bids o.price }
          else { st with bids := levelSet st.bids o.price lvl }
      else
        match levelFind st.asks o.price with
        | none => st
        | some lvl =>
          let lvl := lvl.eraseSlot slot
          if lvl.empty then { st with asks := levelEraseKey st.asks o.price }
          else { st with asks := levelSet st.asks o.price lvl }
    let st := { st with orders := assocErase st.orders id }
    let st := releaseOrder st slot
    (true,
     { st with stats :=
        { st.stats with totalCancelledOrders := st.stats.totalCancelledOrders + 1 } })

/-- `OrderBook::handle_iceberg_refill` (src/order_book.h lines 122-132):
refill the display slice from `remaining` and re-append the same slot to its
sublist; returns whether a refill happened. -/
def handle_iceberg_refill (store : List (Nat × Order)) (slot : Nat)
    (lvl : PriceLevel) : Bool × List (Nat × Order) × PriceLevel :=
  let o := storeGet store slot
  if o.type = OrderType.ICEBERG ∧ o.remaining > 0 then
    let newDisplay := min o.remaining o.display_size
    let o' := { o with display := newDisplay, remaining := o.remaining - newDisplay }
    (true, storeSet store slot o', lvl.add_order o' slot)
  else (false, store, lvl)

/-- The block shared by all matching loops once a passive's display hits
zero: `level.pop_front(); refill; if not refilled, erase the id index entry
and release the slot` (src/order_book.cpp lines 109-118 and twins). -/
def afterPassiveFilled (st : BookState) (lvl : PriceLevel) (pslot : Nat) :
    BookState × PriceLevel :=
  let lvl := lvl.pop_front
  let r := handle_iceberg_refill st.store pslot lvl
  let st := { st with store := r.2.1 }
  let lvl := r.2.2
  if r.1 then (st, lvl)
  else
    let pid := (storeGet st.store pslot).id
    let st := { st with orders := assocErase st.orders pid }
    (releaseOrder st pslot, lvl)

/-- The inner matching loop of the limit cross-match (src/order_book.cpp
lines 92-119 for buys, 132-159 for sells; the two blocks are syntactically
identical up to the choice of opposite book, captured by `isBuy`).  The
level node is re-read from the map each iteration and written back, so the
aliasing between the level reference and `cancel_order`'s map accesses in
the self-trade branch is preserved.  (When a self-owned passive was the
level's last order, `cancel_order` erases the node the C++ still holds a
reference to — undefined behaviour in the source; the model then reads the
key as absent and leaves the loop.)  `fuel` bounds the iteration count;
every run in this development terminates before exhausting it. -/
def limitInner (fuel : Nat) (isBuy : Bool) (aggr : Nat) (bestPrice : Int)
    (st : BookState) (trades : List ExecTrade) : BookState × List ExecTrade :=
  match fuel with
  | 0 => (st, trades)
  | fuel + 1 =>
    let lvl := (levelFind (oppBook st isBuy) bestPrice).getD levelDefault
    let aggrO := storeGet st.store aggr
    if aggrO.display > 0 ∧ lvl.empty = false then
      match lvl.front? with
      | none => (st, trades)
      | some pslot =>
        let pO := storeGet st.store pslot
        if aggrO.ownerID = pO.ownerID then
          let st := setOppBook st isBuy
            (levelSet (oppBook st isBuy) bestPrice lvl.pop_front)
          let st := (cancel_order st pO.id).2
          limitInner fuel isBuy aggr bestPrice st trades
        else
          let q := min aggrO.display pO.display
          let trades := trades ++ [execute_trade aggrO pO q]
          let a1 := { aggrO with display := aggrO.display - q }
          let st := { st with store := storeSet st.store aggr a1 }
          let p1 := storeGet st.store pslot
          let p2 := { p1 with display := p1.display - q, remaining := p1.remaining - q }
          let st := { st with store := storeSet st.store pslot p2 }
          if (storeGet st.store pslot).display = 0 then
            let r := afterPassiveFilled st lvl pslot
            let st := setOppBook r.1 isBuy
              (levelSet (oppBook r.1 isBuy) bestPrice r.2)
            limitInner fuel isBuy aggr bestPrice st trades
          else
            limitInner fuel isBuy aggr bestPrice st trades
    else (st, trades)

/-- The outer loop of the limit cross-match (src/order_book.cpp lines 86-121
and 126-161).  The price-break test uses `price` — the RAW input price
argument, not the order's normalized `price` field. -/
def limitOuter (fuel : Nat) (isBuy : Bool) (aggr : Nat) (rawPrice : Int)
    (st : BookState) (trades : List ExecTrade) : BookState × List ExecTrade :=
  match fuel with
  | 0 => (st, trades)
  | fuel + 1 =>
    let aggrO := storeGet st.store aggr
    let opp := oppBook st isBuy
    match opp.head? with
    | none => (st, trades)
    | some e =>
      if aggrO.display > 0 then
        let bestPrice := e.1
        if (if isBuy then rawPrice < bestPrice else rawPrice > bestPrice) then
          (st, trades)
        else
          let r := limitInner fuel isBuy aggr bestPrice st trades
          let st := setOppBook r.1 isBuy
            (cleanup_empty_level (oppBook r.1 isBuy) bestPrice)
          limitOuter fuel isBuy aggr rawPrice st r.2
      else (st, trades)

/-- The inner loop of MARKET matching (src/order_book.cpp lines 242-270 and
281-309).  Identical to `limitInner` except the self-trade branch erases the
passive's index entry and releases it directly instead of calling
`cancel_order`. -/
def marketInner (fuel : Nat) (isBuy : Bool) (aggr : Nat) (bestPrice : Int)
    (st : BookState) (trades : List ExecTrade) : BookState × List ExecTrade :=
  match fuel with
  | 0 => (st, trades)
  | fuel + 1 =>
    let lvl := (levelFind (oppBook st isBuy) bestPrice).getD levelDefault
    let aggrO := storeGet st.store aggr
    if aggrO.display > 0 ∧ lvl.empty = false then
      match lvl.front? with
      | none => (st, trades)
      | some pslot =>
        let pO := storeGet st.store pslot
        if aggrO.ownerID = pO.ownerID then
          let st := setOppBook st isBuy
            (levelSet (oppBook st isBuy) bestPrice lvl.pop_front)
          let st := { st with orders := assocErase st.orders pO.id }
          let st := releaseOrder st pslot
          marketInner fuel isBuy aggr bestPrice st trades
        else
          let q := min pO.display aggrO.display
          let trades := trades ++ [execute_trade aggrO pO q]
          let p1 := storeGet st.store pslot
          let p2 := { p1 with display := p1.display - q, remaining := p1.remaining - q }
          let st := { st with store := storeSet st.store pslot p2 }
          let a1 := storeGet st.store aggr
          let a2 := { a1 with display := a1.display - q }
          let st := { st with store := storeSet st.store aggr a2 }
          if (storeGet st.store pslot).display = 0 then
            let r := afterPassiveFilled st
              ((levelFind (oppBook st isBuy) bestPrice).getD levelDefault) pslot
            let st := setOppBook r.1 isBuy
              (levelSet (oppBook r.1 isBuy) bestPrice r.2)
            marketInner fuel isBuy aggr bestPrice st trades
          else
            marketInner fuel isBuy aggr bestPrice st trades
    else (st, trades)

/-- Outer loop of MARKET matching: like `limitOuter` but with no price-break
test. -/
def marketOuter (fuel : Nat) (isBuy : Bool) (aggr : Nat)
    (st : BookState) (trades : List ExecTrade) : BookState × List ExecTrade :=
  match fuel with
  | 0 => (st, trades)
  | fuel + 1 =>
    let aggrO := storeGet st.store aggr
    let opp := oppBook st isBuy
    match opp.head? with
    | none => (st, trades)
    | some e =>
      if aggrO.display > 0 then
        let bestPrice := e.1
        let r := marketInner fuel isBuy aggr bestPrice st trades
        let st := setOppBook r.1 isBuy
          (cleanup_empty_level (oppBook r.1 isBuy) bestPrice)
        marketOuter fuel isBuy aggr st r.2
      else (st, trades)

/-- `OrderBook::add_market_order` (src/order_book.cpp lines 233-313): the
opposite side is chosen once from the order's side. -/
def add_market_order (fuel : Nat) (aggr : Nat) (st : BookState)
    (trades : List ExecTrade) : BookState × List ExecTrade :=
  marketOuter fuel ((storeGet st.store aggr).side = Side.BUY) aggr st trades

/-! ## FOK (src/order_book.cpp lines 315-408) -/

/-- The `check_orders` lambda of `add_FOK_order`: walk one deque, skipping
same-owner passives, recording `(slot, min(needed, display))` pairs and
reducing `needed`; stop early (returning `true`) once `needed ≤ 0`. -/
def fokScan (store : List (Nat × Order)) (owner : Nat) (dq : List Nat)
    (needed : Int) (cands : List (Nat × Int)) :
    Bool × Int × List (Nat × Int) :=
  match dq with
  | [] => (false, needed, cands)
  | slot :: rest =>
    let p := storeGet store slot
    if owner = p.ownerID then fokScan store owner rest needed cands
    else
      let available := min needed p.display
      let cands := cands ++ [(slot, available)]
      let needed := needed - available
      if needed ≤ 0 then (true, needed, cands)
      else fokScan store owner rest needed cands

/-- The FOK probe over opposite levels: mm sublist first, then (if the mm
scan neither filled nor exhausted `needed`) the regular sublist; break on a
level beyond the limit price or once `needed ≤ 0`. -/
def fokLevels (store : List (Nat × Order)) (owner : Nat) (isBuy : Bool)
    (limitPrice : Int) (book : List (Int × PriceLevel)) (needed : Int)
    (cands : List (Nat × Int)) : Int × List (Nat × Int) :=
  match book with
  | [] => (needed, cands)
  | (pl, lvl) :: rest =>
    if (if isBuy then limitPrice < pl else pl < limitPrice) then (needed, cands)
    else
      let r1 := fokScan store owner lvl.mm_orders needed cands
      let r2 :=
        if r1.1 = false ∧ r1.2.1 > 0 then
          let r := fokScan store owner lvl.regular_orders r1.2.1 r1.2.2
          (r.2.1, r.2.2)
        else (r1.2.1, r1.2.2)
      if r2.1 ≤ 0 then r2
      else fokLevels store owner isBuy limitPrice rest r2.1 r2.2

set_option maxHeartbeats 1000000 in
/-- One iteration of the FOK commit loop (src/order_book.cpp lines 373-406).
The level reference is `bids_[passive->price]` / `asks_[passive->price]`
(`operator[]` creates an empty node when the key is absent).  Note the final
empty-level erase keys on `passive->price` *re-read after the possible
release* — a released slot was zeroed, so the erase then targets price 0 and
the actual empty node stays behind. -/
def fokCommitStep (aggr : Nat) (st : BookState) (trades : List ExecTrade)
    (c : Nat × Int) : BookState × List ExecTrade :=
  let pslot := c.1
  let qty := c.2
  let o := storeGet st.store aggr
  let p := storeGet st.store pslot
  let trades := trades ++ [execute_trade o p qty]
  let p2 := { p with display := p.display - qty, remaining := p.remaining - qty }
  let st := { st with store := storeSet st.store pslot p2 }
  let o1 := storeGet st.store aggr
  let o2 := { o1 with display := o1.display - qty, remaining := o1.remaining - qty }
  let st := { st with store := storeSet st.store aggr o2 }
  if (storeGet st.store pslot).display = 0 then
    let pSide := (storeGet st.store pslot).side
    let pPrice := (storeGet st.store pslot).price
    let st :=
      if pSide = Side.BUY then { st with bids := bookEnsure bidBefore st.bids pPrice }
      else { st with asks := bookEnsure askBefore st.asks pPrice }
    let book := if pSide = Side.BUY then st.bids else st.asks
    let lvl := ((levelFind book pPrice).getD levelDefault).eraseSlot pslot
    let r := handle_iceberg_refill st.store pslot lvl
    let st := { st with store := r.2.1 }
    let lvl := r.2.2
    let st :=
      if r.1 = false then
        let pid := (storeGet st.store pslot).id
        releaseOrder { st with orders := assocErase st.orders pid } pslot
      else st
    let st :=
      if pSide = Side.BUY then { st with bids := levelSet st.bids pPrice lvl }
      else { st with asks := levelSet st.asks pPrice lvl }
    if lvl.empty then
      let pPriceNow := (storeGet st.store pslot).price
      if pSide = Side.BUY then ({ st with bids := levelEraseKey st.bids pPriceNow }, trades)
      else ({ st with asks := levelEraseKey st.asks pPriceNow }, trades)
    else (st, trades)
  else (st, trades)

/-- The probe phase of `add_FOK_order` (src/order_book.cpp lines 317-367):
pure — it only reads the books and the store.  The limit comparison uses
`order->price`, the normalized price field.  Returns the final `needed` and
the recorded `(passive, quantity)` candidate list. -/
def fokProbe (st : BookState) (aggr : Nat) : Int × List (Nat × Int) :=
  let o := storeGet st.store aggr
  let isBuy := o.side = Side.BUY
  fokLevels st.store o.ownerID isBuy o.price
    (if isBuy then st.asks else st.bids) o.quantity []

/-- `OrderBook::add_FOK_order`: probe (pure), then abort or commit. -/
def add_FOK_order (st : BookState) (aggr : Nat) (trades : List ExecTrade) :
    Bool × BookState × List ExecTrade :=
  let pr := fokProbe st aggr
  if pr.1 > 0 then (false, st, trades)
  else
    let r := pr.2.foldl (fun acc c => fokCommitStep aggr acc.1 acc.2 c) (st, trades)
    (true, r.1, r.2)

/-! ## Stop cascade (src/order_book.cpp lines 192-231) -/

/-- The body of the `for (Order *stop_order : triggered_stops)` loop.  The
depth counter is incremented before and decremented after each stop, and the
`processing_stops_` erase happens after the slot was released (so it reads
the zeroed id 0 — the inserted id is never removed, as in the source). -/
def processOneStop (fuel : Nat) (acc : BookState × List ExecTrade) (slot : Nat) :
    BookState × List ExecTrade :=
  let st := acc.1
  let trades := acc.2
  let o := storeGet st.store slot
  if st.processing_stops.contains o.id then (st, trades)
  else
    let st := { st with
      processing_stops := o.id :: st.processing_stops,
      stop_cascade_depth := st.stop_cascade_depth + 1,
      stats := { st.stats with totalStopTriggered := st.stats.totalStopTriggered + 1 } }
    let o1 := storeGet st.store slot
    let o2 := { o1 with type := OrderType.MARKET, price := 0, is_triggered := true }
    let st := { st with store := storeSet st.store slot o2 }
    let r := add_market_order fuel slot st []
    let st := r.1
    let trades := trades ++ r.2
    let st := { st with orders := assocErase st.orders (storeGet st.store slot).id }
    let st := releaseOrder st slot
    let st := { st with
      processing_stops := st.processing_stops.erase (storeGet st.store slot).id }
    ({ st with stop_cascade_depth := st.stop_cascade_depth - 1 }, trades)

/-- `OrderBook::process_triggered_stops`: take the last trade's price, bail
out if `trades` is empty or the cascade depth has reached the maximum,
otherwise fetch the triggered stops once and process each. -/
def process_triggered_stops (fuel : Nat) (st : BookState)
    (trades : List ExecTrade) : BookState × List ExecTrade :=
  if trades.isEmpty then (st, trades)
  else
    let last := ((trades.getLast?).getD (ExecTrade.mk 0 0 0 0 0 0)).price
    if st.stop_cascade_depth ≥ MAX_CASCADE_DEPTH then (st, trades)
    else
      let r := check_triggered_stops st.store st.stops last
      let st := { st with stops := r.2 }
      r.1.foldl (processOneStop fuel) (st, trades)

/-! ## `OrderBook::add_order` (src/order_book.cpp lines 3-190)

The risk gate (`RiskManager::check_order`) consults wall-clock rate-limit
windows and floating-point deviation/circuit-breaker state, which have no
shallow embedding; its verdict enters the model as the explicit
`risk_approved : Bool` argument.  `fuel` bounds the matching-loop iteration
counts as in `limitOuter`.  The acquire-failure null check in the source is
dead (`make_unique` throws instead of returning null) and is not modelled. -/

/-- `stats_.totalTrades += trades.size()` plus the volume accumulation loop. -/
def bumpTradeStats (st : BookState) (trades : List ExecTrade) : BookState :=
  { st with stats := { st.stats with
      totalTrades := st.stats.totalTrades + trades.length,
      totalVolumes := st.stats.totalVolumes + (trades.map (fun t => t.quantity)).sum } }

/-- The entry phase of `add_order` (src/order_book.cpp lines 12-38): bump
`totalOrders`, acquire a slot, copy the constructed order into it, then
normalize `price` (for non-MARKET orders) and `stop_price` through
`round_to_tick`, skipping the overwrite when rounding yields 0.  Returns the
acquired slot and the updated state. -/
def ingest (st : BookState) (id : Nat) (side : Side)
    (price qty disp display_size : Int) (type : OrderType) (ownerID : Nat)
    (stop_price : Int) (session_id : Nat) : Nat × BookState :=
  let st := { st with stats :=
    { st.stats with totalOrders := st.stats.totalOrders + 1 } }
  let acq := st.pool.acquire
  let slot := acq.1
  let st := { st with pool := acq.2 }
  let newO := mkOrder id side price stop_price qty disp display_size type ownerID session_id
  let st := { st with store := storeSet st.store slot newO }
  let st :=
    if type ≠ OrderType.MARKET ∧ price > 0 then
      let rounded := round_to_tick price
      if rounded > 0 then
        let o := storeGet st.store slot
        { st with store := storeSet st.store slot { o with price := rounded } }
      else st
    else st
  let st :=
    if stop_price > 0 then
      let roundedStop := round_to_tick stop_price
      if roundedStop > 0 then
        let o := storeGet st.store slot
        { st with store := storeSet st.store slot { o with stop_price := roundedStop } }
      else st
    else st
  (slot, st)

def add_order (fuel : Nat) (st : BookState) (id : Nat) (side : Side)
    (price qty disp display_size : Int) (type : OrderType) (ownerID : Nat)
    (stop_price : Int) (session_id : Nat) (risk_approved : Bool) :
    BookState × List ExecTrade :=
  let ing := ingest st id side price qty disp display_size type ownerID
    stop_price session_id
  let slot := ing.1
  let st := ing.2
  if risk_approved = false then
    let st := releaseOrder st slot
    ({ st with stats :=
      { st.stats with totalRiskRejected := st.stats.totalRiskRejected + 1 } }, [])
  else if type = OrderType.STOP_LOSS then
    let st := { st with stops := add_stop_order st.store st.stops slot }
    let st := { st with orders := assocSet st.orders id slot }
    (st, [])
  else if type = OrderType.FOK then
    let r := add_FOK_order st slot []
    let st := if r.1 then bumpTradeStats r.2.1 r.2.2 else r.2.1
    let st := releaseOrder st slot
    process_triggered_stops fuel st r.2.2
  else if type = OrderType.MARKET then
    let r := add_market_order fuel slot st []
    let st := bumpTradeStats r.1 r.2
    let st := releaseOrder st slot
    process_triggered_stops fuel st r.2
  else
    let isBuy := side = Side.BUY
    let r := limitOuter fuel isBuy slot price st []
    let st := r.1
    let trades := r.2
    let o := storeGet st.store slot
    let st :=
      if o.display > 0 ∧ (type = OrderType.GTC ∨ type = OrderType.ICEBERG) then
        let st :=
          if isBuy then { st with bids := bookAdd bidBefore st.bids price o slot }
          else { st with asks := bookAdd askBefore st.asks price o slot }
        { st with orders := assocSet st.orders id slot }
      else releaseOrder st slot
    let r2 := process_triggered_stops fuel st trades
    (bumpTradeStats r2.1 r2.2, r2.2)

/-! ## Shared helper lemmas -/

theorem storeGet_storeSet_self (store : List (Nat × Order)) (slot : Nat) (o : Order) :
    storeGet (storeSet store slot o) slot = o := by
  induction store with
  | nil => simp [storeSet, storeGet]
  | cons e rest ih =>
    by_cases h : e.1 = slot
    · simp [storeSet, h, storeGet]
    · simp only [storeSet, if_neg h, storeGet, List.find?]
      have : (e.1 == slot) = false := by simpa using h
      simp only [this]
      exact ih

theorem storeGet_storeSet_ne (store : List (Nat × Order)) (slot slot' : Nat)
    (o : Order) (h : slot' ≠ slot) :
    storeGet (storeSet store slot o) slot' = storeGet store slot' := by
  induction store with
  | nil =>
    simp only [storeSet, storeGet, List.find?]
    have : (slot == slot') = false := by simpa using fun e => h e.symm
    simp [this]
  | cons e rest ih =>
    by_cases he : e.1 = slot
    · subst he
      simp only [storeSet, if_pos rfl, storeGet, List.find?]
      have h1 : (e.1 == slot') = false := by simpa using fun e2 => h e2.symm
      simp [h1]
    · simp only [storeSet, if_neg he, storeGet, List.find?]
      cases hb : (e.1 == slot') with
      | true => rfl
      | false => exact ih

/-! ## C10 -/

theorem round_to_tick_eq (p : Int) :
    round_to_tick p =
      if p ≤ 0 then 0
      else if p ≤ 99999 then p
      else if p ≤ 499999 then ((p + 2) / 5) * 5
      else if p ≤ 999999 then ((p + 5) / 10) * 10
      else if p ≤ LLONG_MAX then ((p + 50) / 100) * 100
      else 0 := by
  simp only [round_to_tick, roundLoop, defaultRules, LLONG_MAX]
  split_ifs <;> omega

set_option maxHeartbeats 4000000 in
/-- C10: `round_to_tick` is idempotent — rounding an already-rounded price
changes nothing — and consequently every result of `round_to_tick`
(in particular every non-zero one) satisfies `is_valid_price`. -/
theorem C10_round_to_tick_idempotent (p : Int) :
    round_to_tick (round_to_tick p) = round_to_tick p ∧
      is_valid_price (round_to_tick p) = true := by
  have h : round_to_tick (round_to_tick p) = round_to_tick p := by
    rw [round_to_tick_eq, round_to_tick_eq]
    simp only [LLONG_MAX]
    split_ifs <;> omega
  refine ⟨h, ?_⟩
  simp [is_valid_price, h]

/-! ## C8

`ObjectPool::release` validates only membership in `valid_objects_`, and
`valid_objects_` is never pruned: a pointer the pool issued stays "valid"
forever, also while it sits on the free stack.  So null and foreign pointers
are rejected, but a double-free passes the check, pushes the handle a second
time and decrements the `size_t` allocated count once more (wrapping at 0). -/

/-- C8 counterexample: the pool `⟨[0], [0], 0, 1⟩` has slot 0 issued and
already released (it sits on the free stack; allocated count 0).  The claim
says releasing it again leaves the pool unchanged; instead the slot is
pushed a second time and the allocated count underflows to `2^64 - 1`. -/
theorem C8_counterexample :
    Pool.release ⟨[0], [0], 0, 1⟩ (some 0) ≠ ⟨[0], [0], 0, 1⟩ ∧
      (Pool.release ⟨[0], [0], 0, 1⟩ (some 0)).available = [0, 0] ∧
      (Pool.release ⟨[0], [0], 0, 1⟩ (some 0)).allocated = 18446744073709551615 := by
  refine ⟨?_, ?_, ?_⟩ <;> decide

/-- C8 amended: `release` leaves the pool unchanged for a null pointer and
for a foreign pointer never issued by the pool; but any pointer in
`valid_objects_` — including an already-released one — passes validation and
is pushed onto the free stack with the allocated count decremented
(wrapping). -/
theorem C8_release_validation (p : Pool) :
    Pool.release p none = p ∧
      (∀ x, p.valid.contains x = false → Pool.release p (some x) = p) ∧
      (∀ x, p.valid.contains x = true → Pool.release p (some x) = p.pushFree x) := by
  refine ⟨rfl, ?_, ?_⟩ <;> intro x hx <;> simp only [Pool.release] <;>
    rw [hx] <;> simp

/-- C8 witness: the amended theorem evaluated on a concrete pool, a foreign
pointer and a live handle. -/
theorem C8_release_validation_witness :
    Pool.release ⟨[0], [0], 0, 1⟩ none = ⟨[0], [0], 0, 1⟩ ∧
      Pool.release ⟨[0], [0], 0, 1⟩ (some 5) = ⟨[0], [0], 0, 1⟩ ∧
      Pool.release ⟨[0], [0], 0, 1⟩ (some 0) = Pool.pushFree ⟨[0], [0], 0, 1⟩ 0 :=
  ⟨(C8_release_validation ⟨[0], [0], 0, 1⟩).1,
   (C8_release_validation ⟨[0], [0], 0, 1⟩).2.1 5 (by decide),
   (C8_release_validation ⟨[0], [0], 0, 1⟩).2.2 0 (by decide)⟩

/-! ## C9

`reset_order` zeroes twelve of the fifteen `Order` fields but skips `side`,
`type` and `is_market_maker`, so a released slot is not fully returned to
the default-constructed state. -/

/-- A SELL MARKET market-maker order occupying slot 0 of `c9State`. -/
def c9Order : Order :=
  { zeroedOrder with id := 7, side := Side.SELL, price := 5,
                     type := OrderType.MARKET, is_market_maker := true }

/-- A concrete book state holding `c9Order` in its one live slot. -/
def c9State : BookState :=
  { bids := [], asks := [], orders := [(7, 0)],
    store := [(0, c9Order)],
    pool := { valid := [0], available := [], allocated := 1, nextFresh := 1 },
    stops := { buy_stops := [], sell_stops := [], stop_lookup := [] },
    processing_stops := [], stop_cascade_depth := 0,
    stats := { totalOrders := 0, totalTrades := 0, totalVolumes := 0,
               totalCancelledOrders := 0, totalStopTriggered := 0,
               totalRiskRejected := 0 } }

/-- C9 counterexample: releasing the live slot of `c9State` leaves `side =
SELL`, `type = MARKET` and `is_market_maker = true` in the slot, so the slot
does not equal the zeroed default-constructed order the claim demands. -/
theorem C9_counterexample :
    storeGet (releaseOrder c9State 0).store 0 ≠ zeroedOrder ∧
      (storeGet (releaseOrder c9State 0).store 0).side = Side.SELL ∧
      (storeGet (releaseOrder c9State 0).store 0).type = OrderType.MARKET ∧
      (storeGet (releaseOrder c9State 0).store 0).is_market_maker = true := by
  refine ⟨?_, ?_, ?_, ?_⟩ <;> decide

/-- C9 amended: releasing a live slot zeroes every `Order` field except
`side`, `type` and `is_market_maker`, which keep their previous values, and
pushes the slot onto the free stack. -/
theorem C9_release_zeroes_except_side_type_mm (st : BookState) (slot : Nat)
    (hv : st.pool.valid.contains slot = true) :
    storeGet (releaseOrder st slot).store slot =
      { zeroedOrder with side := (storeGet st.store slot).side,
                         type := (storeGet st.store slot).type,
                         is_market_maker := (storeGet st.store slot).is_market_maker } ∧
      (releaseOrder st slot).pool.available = slot :: st.pool.available := by
  unfold releaseOrder
  rw [hv]
  simp only [if_true]
  constructor
  · rw [storeGet_storeSet_self]
    rfl
  · rfl

/-- C9 witness: the amended theorem evaluated on `c9State`. -/
theorem C9_release_zeroes_witness :
    storeGet (releaseOrder c9State 0).store 0 =
      { zeroedOrder with side := (storeGet c9State.store 0).side,
                         type := (storeGet c9State.store 0).type,
                         is_market_maker := (storeGet c9State.store 0).is_market_maker } ∧
      (releaseOrder c9State 0).pool.available = 0 :: c9State.pool.available :=
  C9_release_zeroes_except_side_type_mm c9State 0 (by decide)

/-! ## C4

`check_triggered_stops` walks the ascending buy-stop map up to
`upper_bound(last)` — emitting exactly the buy stops with `stop_price ≤
last` in ascending key order, buckets in arrival order — and then walks the
sell-stop map forward from `lower_bound(last)`, which also emits in
ASCENDING `stop_price` order, not the descending order the claim states.
All fired stops are removed from the stop books and the id lookup. -/

theorem sorted_takeWhile_eq_filter (p : Int × List Nat → Bool)
    (hmono : ∀ a b : Int × List Nat, a.1 < b.1 → p b = true → p a = true) :
    ∀ (l : List (Int × List Nat)), l.Pairwise (fun a b => a.1 < b.1) →
      l.takeWhile p = l.filter p := by
  intro l hsort
  induction l with
  | nil => rfl
  | cons h t ih =>
    rcases List.pairwise_cons.mp hsort with ⟨hh, ht⟩
    cases hp : p h with
    | true =>
      simp [List.takeWhile_cons, hp, List.filter_cons, ih ht]
    | false =>
      have hnone : ∀ x ∈ t, ¬ p x = true := by
        intro x hx hpx
        have := hmono h x (hh x hx) hpx
        rw [this] at hp
        simp at hp
      simp [List.takeWhile_cons, hp, List.filter_cons,
        List.filter_eq_nil_iff.mpr hnone]

theorem sorted_dropWhile_eq_filter (p : Int × List Nat → Bool)
    (hmono : ∀ a b : Int × List Nat, a.1 < b.1 → p b = true → p a = true) :
    ∀ (l : List (Int × List Nat)), l.Pairwise (fun a b => a.1 < b.1) →
      l.dropWhile p = l.filter (fun e => !(p e)) := by
  intro l hsort
  induction l with
  | nil => rfl
  | cons h t ih =>
    rcases List.pairwise_cons.mp hsort with ⟨hh, ht⟩
    cases hp : p h with
    | true =>
      simp [List.dropWhile_cons, hp, List.filter_cons, ih ht]
    | false =>
      have hall : ∀ x ∈ t, (!(p x)) = true := by
        intro x hx
        cases hpx : p x with
        | true =>
          have := hmono h x (hh x hx) hpx
          rw [this] at hp
          simp at hp
        | false => rfl
      simp [List.dropWhile_cons, hp, List.filter_cons,
        List.filter_eq_self.mpr hall]

theorem assocErase_eq_filter (k : Nat) :
    ∀ (l : List (Nat × Nat)), (l.map Prod.fst).Nodup →
      assocErase l k = l.filter (fun e => !(e.1 == k)) := by
  intro l h
  induction l with
  | nil => rfl
  | cons e rest ih =>
    rcases List.nodup_cons.mp h with ⟨he, ht⟩
    by_cases hk : e.1 = k
    · subst hk
      have : ∀ x ∈ rest, (!(x.1 == e.1)) = true := by
        intro x hx
        have : x.1 ≠ e.1 := by
          intro hc
          exact he (hc ▸ List.mem_map_of_mem Prod.fst hx)
        simp [this]
      simp [assocErase, List.filter_cons, List.filter_eq_self.mpr this]
    · simp [assocErase, hk, List.filter_cons, ih ht]

theorem foldl_assocErase_eq_filter :
    ∀ (ids : List Nat) (lk : List (Nat × Nat)), (lk.map Prod.fst).Nodup →
      ids.foldl assocErase lk = lk.filter (fun e => !(ids.contains e.1)) := by
  intro ids
  induction ids with
  | nil => intro lk _; simp
  | cons i ids ih =>
    intro lk h
    have h1 : assocErase lk i = lk.filter (fun e => !(e.1 == i)) :=
      assocErase_eq_filter i lk h
    have h2 : ((assocErase lk i).map Prod.fst).Nodup := by
      rw [h1]
      exact ((List.filter_sublist lk).map Prod.fst).nodup h
    have h3 := ih (assocErase lk i) h2
    rw [List.foldl_cons, h3, h1, List.filter_filter]
    apply List.filter_congr
    intro e _
    by_cases he : e.1 = i <;> by_cases hm : e.1 ∈ ids <;> simp [he, hm]

/-- The SELL stop resting at stop_price 10 in the C4 counterexample. -/
def c4s1 : Order :=
  { zeroedOrder with id := 11, side := Side.SELL, type := OrderType.STOP_LOSS,
                     stop_price := 10 }

/-- The SELL stop resting at stop_price 20 in the C4 counterexample. -/
def c4s2 : Order :=
  { zeroedOrder with id := 12, side := Side.SELL, type := OrderType.STOP_LOSS,
                     stop_price := 20 }

def c4Store : List (Nat × Order) := [(1, c4s1), (2, c4s2)]

/-- Two sell stops, stop prices 10 and 20, both ≥ a last trade price of 5. -/
def c4Stops : StopState :=
  { buy_stops := [], sell_stops := [(10, [1]), (20, [2])],
    stop_lookup := [(11, 1), (12, 2)] }

/-- C4 counterexample: with last trade price 5, both sell stops fire and are
emitted as `[slot 1 (stop 10), slot 2 (stop 20)]` — ascending stop_price.
Descending emission, as the claim states, would require slot 2 (stop 20)
first; indeed the first emitted stop has the strictly smaller stop price. -/
theorem C4_counterexample :
    (check_triggered_stops c4Store c4Stops 5).1 = [1, 2] ∧
      (storeGet c4Store 1).stop_price = 10 ∧
      (storeGet c4Store 2).stop_price = 20 ∧
      ¬ (storeGet c4Store 2).stop_price ≤ (storeGet c4Store 1).stop_price := by
  refine ⟨?_, ?_, ?_, ?_⟩ <;> decide

/-- C4 amended: for stop books sorted strictly ascending by stop price and a
duplicate-free id lookup, `check_triggered_stops last` emits exactly the buy
stops with `stop_price ≤ last` in ascending stop-price order followed by the
sell stops with `stop_price ≥ last` — also in ASCENDING stop-price order
(the source iterates the sell map forward from `lower_bound`) — preserving
per-bucket arrival order; fired buckets leave the books (keys `> last`
remain on the buy side, keys `< last` on the sell side) and every fired
order's id leaves the lookup. -/
theorem C4_check_triggered_stops (store : List (Nat × Order)) (st : StopState)
    (last : Int)
    (hb : st.buy_stops.Pairwise (fun a b => a.1 < b.1))
    (hs : st.sell_stops.Pairwise (fun a b => a.1 < b.1))
    (hn : (st.stop_lookup.map Prod.fst).Nodup) :
    (check_triggered_stops store st last).1 =
        ((st.buy_stops.filter (fun e => e.1 ≤ last)).map (fun e => e.2)).flatten ++
        ((st.sell_stops.filter (fun e => last ≤ e.1)).map (fun e => e.2)).flatten ∧
      (check_triggered_stops store st last).2.buy_stops =
        st.buy_stops.filter (fun e => last < e.1) ∧
      (check_triggered_stops store st last).2.sell_stops =
        st.sell_stops.filter (fun e => e.1 < last) ∧
      (check_triggered_stops store st last).2.stop_lookup =
        st.stop_lookup.filter (fun e =>
          !(((check_triggered_stops store st last).1.map
              (fun s => (storeGet store s).id)).contains e.1)) := by
  have hbuyTW : st.buy_stops.takeWhile (fun e => decide (e.1 ≤ last)) =
      st.buy_stops.filter (fun e => decide (e.1 ≤ last)) :=
    sorted_takeWhile_eq_filter _ (fun a b hab hpb => by
      simp only [decide_eq_true_eq] at hpb ⊢; omega) st.buy_stops hb
  have hbuyDW : st.buy_stops.dropWhile (fun e => decide (e.1 ≤ last)) =
      st.buy_stops.filter (fun e => decide (last < e.1)) := by
    rw [sorted_dropWhile_eq_filter _ (fun a b hab hpb => by
      simp only [decide_eq_true_eq] at hpb ⊢; omega) st.buy_stops hb]
    apply List.filter_congr
    intro e _
    rw [← decide_not]
    exact decide_eq_decide.mpr (by omega)
  have hsellTW : st.sell_stops.takeWhile (fun e => decide (e.1 < last)) =
      st.sell_stops.filter (fun e => decide (e.1 < last)) :=
    sorted_takeWhile_eq_filter _ (fun a b hab hpb => by
      simp only [decide_eq_true_eq] at hpb ⊢; omega) st.sell_stops hs
  have hsellDW : st.sell_stops.dropWhile (fun e => decide (e.1 < last)) =
      st.sell_stops.filter (fun e => decide (last ≤ e.1)) := by
    rw [sorted_dropWhile_eq_filter _ (fun a b hab hpb => by
      simp only [decide_eq_true_eq] at hpb ⊢; omega) st.sell_stops hs]
    apply List.filter_congr
    intro e _
    rw [← decide_not]
    exact decide_eq_decide.mpr (by omega)
  have hfired : (check_triggered_stops store st last).1 =
      ((st.buy_stops.filter (fun e => e.1 ≤ last)).map (fun e => e.2)).flatten ++
      ((st.sell_stops.filter (fun e => last ≤ e.1)).map (fun e => e.2)).flatten := by
    simp only [check_triggered_stops]
    rw [hbuyTW, hsellDW]
  refine ⟨hfired, ?_, ?_, ?_⟩
  · simp only [check_triggered_stops]
    rw [hbuyDW]
  · simp only [check_triggered_stops]
    rw [hsellTW]
  · rw [hfired]
    simp only [check_triggered_stops]
    rw [hbuyTW, hsellDW]
    rw [← List.foldl_map (fun s => (storeGet store s).id) assocErase]
    exact foldl_assocErase_eq_filter _ st.stop_lookup hn

/-- C4 witness: the amended characterization evaluated on the two-sell-stop
state with last trade price 5. -/
theorem C4_check_triggered_stops_witness :
    (check_triggered_stops c4Store c4Stops 5).1 =
        ((c4Stops.buy_stops.filter (fun e => e.1 ≤ 5)).map (fun e => e.2)).flatten ++
        ((c4Stops.sell_stops.filter (fun e => (5:Int) ≤ e.1)).map (fun e => e.2)).flatten ∧
      (check_triggered_stops c4Store c4Stops 5).2.buy_stops =
        c4Stops.buy_stops.filter (fun e => (5:Int) < e.1) ∧
      (check_triggered_stops c4Store c4Stops 5).2.sell_stops =
        c4Stops.sell_stops.filter (fun e => e.1 < 5) ∧
      (check_triggered_stops c4Store c4Stops 5).2.stop_lookup =
        c4Stops.stop_lookup.filter (fun e =>
          !(((check_triggered_stops c4Store c4Stops 5).1.map
              (fun s => (storeGet c4Store s).id)).contains e.1)) :=
  C4_check_triggered_stops c4Store c4Stops 5 (by decide) (by decide) (by decide)

/-! ## C6

`handle_iceberg_refill` performs the display/remaining bookkeeping the claim
describes and re-appends the SAME slot at the tail of the sublist selected
by `is_market_maker`.  But a refilled market-maker iceberg only loses time
priority within `mm_orders`: `PriceLevel::front` serves `mm_orders` before
`regular_orders`, so the refilled slice is still served ahead of every
regular order already resting at the level — contradicting the claim's
"loses time priority to every order currently at that level". -/

/-- A market-maker ICEBERG whose display just hit zero, with 5 remaining. -/
def c6Iceberg : Order :=
  { zeroedOrder with id := 1, type := OrderType.ICEBERG, remaining := 5,
                     display_size := 10, is_market_maker := true }

/-- A regular order resting at the same level. -/
def c6Regular : Order := { zeroedOrder with id := 2, display := 3 }

def c6Store : List (Nat × Order) := [(1, c6Iceberg), (2, c6Regular)]

/-- The level after the iceberg (slot 1) was popped: only the regular order
(slot 2) remains. -/
def c6Level : PriceLevel := ⟨[], [2]⟩

/-- C6 counterexample: refilling the market-maker iceberg (slot 1) into a
level that still holds the regular order (slot 2) puts slot 1 at the tail of
the (empty) `mm_orders` sublist — and `front` then serves slot 1 BEFORE
slot 2, so the refilled slice did not lose time priority to every order
currently at the level. -/
theorem C6_counterexample :
    (handle_iceberg_refill c6Store 1 c6Level).1 = true ∧
      (handle_iceberg_refill c6Store 1 c6Level).2.2 = ⟨[1], [2]⟩ ∧
      (handle_iceberg_refill c6Store 1 c6Level).2.2.front? = some 1 ∧
      c6Level.regular_orders = [2] := by
  refine ⟨?_, ?_, ?_, ?_⟩ <;> decide

/-- C6 amended: when a resting ICEBERG's display reaches zero with
`remaining > 0` the engine sets `display = min(remaining, display_size)`,
decrements `remaining` by that new display, and reinserts the same slot at
the TAIL of the sublist selected by `is_market_maker` — so the refilled
slice loses time priority to every order in ITS OWN sublist, while a
market-maker refill is still served before all regular orders at the level;
if `remaining = 0` (or the order is not an iceberg) there is no refill and
the caller's shared block erases the id-index entry and releases the slot. -/
theorem C6_iceberg_refill (store : List (Nat × Order)) (slot : Nat)
    (lvl : PriceLevel) (st : BookState) :
    ((storeGet store slot).type = OrderType.ICEBERG →
      0 < (storeGet store slot).remaining →
      handle_iceberg_refill store slot lvl =
        (true,
         storeSet store slot
           { storeGet store slot with
               display := min (storeGet store slot).remaining
                 (storeGet store slot).display_size,
               remaining := (storeGet store slot).remaining -
                 min (storeGet store slot).remaining
                   (storeGet store slot).display_size },
         if (storeGet store slot).is_market_maker then
           { lvl with mm_orders := lvl.mm_orders ++ [slot] }
         else
           { lvl with regular_orders := lvl.regular_orders ++ [slot] })) ∧
    ((storeGet store slot).type = OrderType.ICEBERG →
      0 < (storeGet store slot).remaining →
      (storeGet store slot).is_market_maker = true →
      ((handle_iceberg_refill store slot lvl).2.2.mm_orders =
          lvl.mm_orders ++ [slot] ∧
        (handle_iceberg_refill store slot lvl).2.2.regular_orders =
          lvl.regular_orders ∧
        (handle_iceberg_refill store slot lvl).2.2.front? =
          (lvl.mm_orders ++ [slot]).head?)) ∧
    ((storeGet st.store slot).type ≠ OrderType.ICEBERG ∨
        (storeGet st.store slot).remaining ≤ 0 →
      afterPassiveFilled st lvl slot =
        (releaseOrder
          { st with orders := assocErase st.orders (storeGet st.store slot).id }
          slot,
         lvl.pop_front)) := by
  refine ⟨?_, ?_, ?_⟩
  · intro ht hr
    have hcond : (storeGet store slot).type = OrderType.ICEBERG ∧
        (storeGet store slot).remaining > 0 := ⟨ht, hr⟩
    simp only [handle_iceberg_refill, if_pos hcond, PriceLevel.add_order]
  · intro ht hr hmm
    have hcond : (storeGet store slot).type = OrderType.ICEBERG ∧
        (storeGet store slot).remaining > 0 := ⟨ht, hr⟩
    simp only [handle_iceberg_refill, if_pos hcond, PriceLevel.add_order, hmm,
      if_true, PriceLevel.front?]
    simp
  · intro h
    have hcond : ¬ ((storeGet st.store slot).type = OrderType.ICEBERG ∧
        (storeGet st.store slot).remaining > 0) := by
      rintro ⟨h1, h2⟩
      rcases h with h | h
      · exact h h1
      · omega
    simp only [afterPassiveFilled, handle_iceberg_refill, if_neg hcond]
    simp

/-- C6 witness: the amended theorem evaluated on the concrete refill
scenario (slots of `c6Store`) and, for the no-refill clause, on `c9State`
whose slot 1 is empty (hence not an iceberg). -/
theorem C6_iceberg_refill_witness :
    handle_iceberg_refill c6Store 1 c6Level =
        (true,
         storeSet c6Store 1
           { storeGet c6Store 1 with
               display := min (storeGet c6Store 1).remaining
                 (storeGet c6Store 1).display_size,
               remaining := (storeGet c6Store 1).remaining -
                 min (storeGet c6Store 1).remaining
                   (storeGet c6Store 1).display_size },
         if (storeGet c6Store 1).is_market_maker then
           { c6Level with mm_orders := c6Level.mm_orders ++ [1] }
         else
           { c6Level with regular_orders := c6Level.regular_orders ++ [1] }) ∧
      ((handle_iceberg_refill c6Store 1 c6Level).2.2.mm_orders =
          c6Level.mm_orders ++ [1] ∧
        (handle_iceberg_refill c6Store 1 c6Level).2.2.regular_orders =
          c6Level.regular_orders ∧
        (handle_iceberg_refill c6Store 1 c6Level).2.2.front? =
          (c6Level.mm_orders ++ [1]).head?) ∧
      afterPassiveFilled c9State c6Level 1 =
        (releaseOrder
          { c9State with
              orders := assocErase c9State.orders (storeGet c9State.store 1).id }
          1,
         c6Level.pop_front) :=
  ⟨(C6_iceberg_refill c6Store 1 c6Level c9State).1 (by decide) (by decide),
   (C6_iceberg_refill c6Store 1 c6Level c9State).2.1 (by decide) (by decide)
     (by decide),
   (C6_iceberg_refill c6Store 1 c6Level c9State).2.2 (by decide)⟩

/-! ## Concrete initial states for the C1 / C5 / C3 executions -/

/-- A fresh ten-slot pool (all slots issued at construction and free). -/
def pool10 : Pool :=
  { valid := [0, 1, 2, 3, 4, 5, 6, 7, 8, 9],
    available := [0, 1, 2, 3, 4, 5, 6, 7, 8, 9],
    allocated := 0, nextFresh := 10 }

def zeroStats : Stats :=
  { totalOrders := 0, totalTrades := 0, totalVolumes := 0,
    totalCancelledOrders := 0, totalStopTriggered := 0, totalRiskRejected := 0 }

/-- A freshly constructed, empty order book. -/
def emptyBook : BookState :=
  { bids := [], asks := [], orders := [], store := [], pool := pool10,
    stops := { buy_stops := [], sell_stops := [], stop_lookup := [] },
    processing_stops := [], stop_cascade_depth := 0, stats := zeroStats }

/-! ## C1

`add_order` normalizes the ORDER's price field (`order_ptr->price =
round_to_tick(price)`) but then rests the order with `bids_[price]` /
`asks_[price]` — the RAW input price (src/order_book.cpp lines 165-176).  A
GTC BUY at price 100001 (tick band 5) therefore rests under the map key
100001 while its price field holds 100000: the book stores a non-zero price
key with `round_to_tick(key) ≠ key`. -/

/-- C1: submitting a GTC BUY at the non-tick-aligned price 100001 into an
empty book leaves a bid level keyed 100001 — which fails
`round_to_tick(p) = p` — while the resting order's own price field was
normalized to 100000.  This exhibits the claim's failure on the code. -/
theorem C1_raw_price_level_key :
    (add_order 20 emptyBook 1 Side.BUY 100001 10 10 0 OrderType.GTC 1 0 0 true).1.bids
        = [(100001, ⟨[], [0]⟩)] ∧
      (storeGet (add_order 20 emptyBook 1 Side.BUY 100001 10 10 0
          OrderType.GTC 1 0 0 true).1.store 0).price = 100000 ∧
      round_to_tick 100001 = 100000 ∧
      is_valid_price 100001 = false := by
  refine ⟨?_, ?_, ?_, ?_⟩ <;> decide

/-! ## C5

Because of the raw-price level key (C1), `cancel_order` — which looks the
level up under the NORMALIZED `order->price` — cannot find the level of an
order that rested at a non-tick-aligned price: it still returns `true`,
erases the id index entry and releases the slot, but the bid level keyed at
the raw price survives, holding a dangling slot reference.  The
cancel-after-add round trip does not restore the book. -/

/-- The book after the C1 add: one resting GTC BUY, raw key 100001. -/
def c5Rested : BookState :=
  (add_order 20 emptyBook 1 Side.BUY 100001 10 10 0 OrderType.GTC 1 0 0 true).1

/-- C5: cancelling the order that just rested returns `true` and restores
the id index and the arena's allocated count, but the bids map still holds
the level keyed 100001 with the released slot 0 — not its pre-add (empty)
value.  This exhibits the claim's failure on the code. -/
theorem C5_cancel_add_not_restored :
    (cancel_order c5Rested 1).1 = true ∧
      (cancel_order c5Rested 1).2.orders = emptyBook.orders ∧
      (cancel_order c5Rested 1).2.pool.allocated = emptyBook.pool.allocated ∧
      (cancel_order c5Rested 1).2.bids = [(100001, ⟨[], [0]⟩)] ∧
      emptyBook.bids = [] := by
  refine ⟨?_, ?_, ?_, ?_, ?_⟩ <;> decide

/-! ## C3

`process_triggered_stops` increments `stop_cascade_depth_` before and
decrements it after EACH triggered stop, and `add_market_order` never
re-enters the cascade controller, so the depth guard `depth ≥
MAX_CASCADE_DEPTH` at function entry compares against a counter that
oscillates between 0 and 1: every stop returned by one
`check_triggered_stops` batch is processed, however many there are.  Four
sell stops triggered by a single trade are all four converted to MARKET and
executed in one `add_order` call, exceeding `MAX_CASCADE_DEPTH = 3`. -/

def c3s1 : BookState :=
  (add_order 20 emptyBook 1 Side.BUY 100 1 1 0 OrderType.GTC 1 0 0 true).1

def c3s2 : BookState :=
  (add_order 20 c3s1 2 Side.SELL 0 1 1 0 OrderType.STOP_LOSS 2 100 0 true).1

def c3s3 : BookState :=
  (add_order 20 c3s2 3 Side.SELL 0 1 1 0 OrderType.STOP_LOSS 3 100 0 true).1

def c3s4 : BookState :=
  (add_order 20 c3s3 4 Side.SELL 0 1 1 0 OrderType.STOP_LOSS 4 100 0 true).1

/-- The book after resting a bid at 100 and four SELL stops at
stop_price 100 (distinct owners 2-5). -/
def c3s5 : BookState :=
  (add_order 20 c3s4 5 Side.SELL 0 1 1 0 OrderType.STOP_LOSS 5 100 0 true).1

/-- C3: before the market order, no stop has ever been triggered; the single
`add_order` of a SELL MARKET (owner 6) trades at 100 against the resting
bid, which triggers all four sell stops at stop_price 100 — the call
processes 4 triggered stops (converted to MARKET, counted by the engine's
own `totalStopTriggered`), exceeding `MAX_CASCADE_DEPTH = 3`.  This
exhibits the claim's failure on the code. -/
theorem C3_cascade_depth_not_enforced :
    c3s5.stats.totalStopTriggered = 0 ∧
      (add_order 20 c3s5 6 Side.SELL 0 1 1 0 OrderType.MARKET 6 0 0
          true).1.stats.totalStopTriggered = 4 ∧
      MAX_CASCADE_DEPTH = 3 ∧
      ¬ ((4 : Int) ≤ MAX_CASCADE_DEPTH) := by
  refine ⟨?_, ?_, ?_, ?_⟩ <;> decide

/-! ## C2 lemmas -/

theorem fokScan_nonneg (store : List (Nat × Order)) (owner : Nat) :
    ∀ (dq : List Nat) (needed : Int) (cands : List (Nat × Int)),
      0 ≤ needed → 0 ≤ (fokScan store owner dq needed cands).2.1 := by
  intro dq
  induction dq with
  | nil => intro needed cands h; simpa [fokScan] using h
  | cons slot rest ih =>
    intro needed cands h
    simp only [fokScan]
    by_cases hown : owner = (storeGet store slot).ownerID
    · simp only [if_pos hown]
      exact ih needed cands h
    · simp only [if_neg hown]
      have hmin : min needed (storeGet store slot).display ≤ needed := min_le_left _ _
      by_cases hle : needed - min needed (storeGet store slot).display ≤ 0
      · simp only [if_pos hle]
        omega
      · simp only [if_neg hle]
        exact ih _ _ (by omega)

theorem fokScan_sum (store : List (Nat × Order)) (owner : Nat) :
    ∀ (dq : List Nat) (needed : Int) (cands : List (Nat × Int)),
      (fokScan store owner dq needed cands).2.1 +
          (((fokScan store owner dq needed cands).2.2).map (fun c => c.2)).sum =
        needed + (cands.map (fun c => c.2)).sum := by
  intro dq
  induction dq with
  | nil => intro needed cands; simp [fokScan]
  | cons slot rest ih =>
    intro needed cands
    simp only [fokScan]
    by_cases hown : owner = (storeGet store slot).ownerID
    · simp only [if_pos hown]
      exact ih needed cands
    · simp only [if_neg hown]
      by_cases hle : needed - min needed (storeGet store slot).display ≤ 0
      · simp only [if_pos hle, List.map_append, List.sum_append]
        simp
      · simp only [if_neg hle]
        have := ih (needed - min needed (storeGet store slot).display)
          (cands ++ [(slot, min needed (storeGet store slot).display)])
        rw [this]
        simp [List.sum_append]

theorem fokLevels_nonneg (store : List (Nat × Order)) (owner : Nat)
    (isBuy : Bool) (limitPrice : Int) :
    ∀ (book : List (Int × PriceLevel)) (needed : Int) (cands : List (Nat × Int)),
      0 ≤ needed →
      0 ≤ (fokLevels store owner isBuy limitPrice book needed cands).1 := by
  intro book
  induction book with
  | nil => intro needed cands h; simpa [fokLevels] using h
  | cons e rest ih =>
    intro needed cands h
    rw [fokLevels]
    by_cases hbreak : (if isBuy then limitPrice < e.1 else e.1 < limitPrice)
    · simp only [if_pos hbreak]
      exact h
    · simp only [if_neg hbreak]
      have h1 : 0 ≤ (fokScan store owner e.2.mm_orders needed cands).2.1 :=
        fokScan_nonneg store owner _ _ _ h
      by_cases hc : (fokScan store owner e.2.mm_orders needed cands).1 = false ∧
          (fokScan store owner e.2.mm_orders needed cands).2.1 > 0
      · simp only [if_pos hc]
        have h2 : 0 ≤ (fokScan store owner e.2.regular_orders
            (fokScan store owner e.2.mm_orders needed cands).2.1
            (fokScan store owner e.2.mm_orders needed cands).2.2).2.1 :=
          fokScan_nonneg store owner _ _ _ h1
        by_cases hend : (fokScan store owner e.2.regular_orders
            (fokScan store owner e.2.mm_orders needed cands).2.1
            (fokScan store owner e.2.mm_orders needed cands).2.2).2.1 ≤ 0
        · simp only [if_pos hend]; exact h2
        · simp only [if_neg hend]; exact ih _ _ h2
      · simp only [if_neg hc]
        by_cases hend : (fokScan store owner e.2.mm_orders needed cands).2.1 ≤ 0
        · simp only [if_pos hend]; exact h1
        · simp only [if_neg hend]; exact ih _ _ h1

theorem fokLevels_sum (store : List (Nat × Order)) (owner : Nat)
    (isBuy : Bool) (limitPrice : Int) :
    ∀ (book : List (Int × PriceLevel)) (needed : Int) (cands : List (Nat × Int)),
      (fokLevels store owner isBuy limitPrice book needed cands).1 +
          (((fokLevels store owner isBuy limitPrice book needed cands).2).map
            (fun c => c.2)).sum =
        needed + (cands.map (fun c => c.2)).sum := by
  intro book
  induction book with
  | nil => intro needed cands; simp [fokLevels]
  | cons e rest ih =>
    intro needed cands
    rw [fokLevels]
    by_cases hbreak : (if isBuy then limitPrice < e.1 else e.1 < limitPrice)
    · simp only [if_pos hbreak]
    · simp only [if_neg hbreak]
      have hs1 := fokScan_sum store owner e.2.mm_orders needed cands
      by_cases hc : (fokScan store owner e.2.mm_orders needed cands).1 = false ∧
          (fokScan store owner e.2.mm_orders needed cands).2.1 > 0
      · simp only [if_pos hc]
        have hs2 := fokScan_sum store owner e.2.regular_orders
          (fokScan store owner e.2.mm_orders needed cands).2.1
          (fokScan store owner e.2.mm_orders needed cands).2.2
        by_cases hend : (fokScan store owner e.2.regular_orders
            (fokScan store owner e.2.mm_orders needed cands).2.1
            (fokScan store owner e.2.mm_orders needed cands).2.2).2.1 ≤ 0
        · simp only [if_pos hend]
          omega
        · simp only [if_neg hend]
          rw [ih]
          omega
      · simp only [if_neg hc]
        by_cases hend : (fokScan store owner e.2.mm_orders needed cands).2.1 ≤ 0
        · simp only [if_pos hend]
          omega
        · simp only [if_neg hend]
          rw [ih]
          omega

theorem fokCommitStep_trades (aggr : Nat) (st : BookState) (tr : List ExecTrade)
    (c : Nat × Int) :
    (fokCommitStep aggr st tr c).2 =
      tr ++ [execute_trade (storeGet st.store aggr) (storeGet st.store c.1) c.2] := by
  simp only [fokCommitStep]
  split_ifs <;> rfl

theorem fokCommit_quantities (aggr : Nat) :
    ∀ (cands : List (Nat × Int)) (st : BookState) (tr : List ExecTrade),
      (((cands.foldl (fun acc c => fokCommitStep aggr acc.1 acc.2 c) (st, tr)).2).map
          (fun t => t.quantity)) =
        tr.map (fun t => t.quantity) ++ cands.map (fun c => c.2) := by
  intro cands
  induction cands with
  | nil => intro st tr; simp
  | cons c cs ih =>
    intro st tr
    rw [List.foldl_cons]
    rw [← Prod.mk.eta (p := fokCommitStep aggr st tr c)]
    rw [ih]
    rw [fokCommitStep_trades]
    simp [execute_trade]

theorem releaseOrder_fields (st : BookState) (slot : Nat) :
    (releaseOrder st slot).bids = st.bids ∧
      (releaseOrder st slot).asks = st.asks ∧
      (releaseOrder st slot).orders = st.orders ∧
      (releaseOrder st slot).stops = st.stops := by
  unfold releaseOrder
  split <;> exact ⟨rfl, rfl, rfl, rfl⟩

theorem releaseOrder_pool (st : BookState) (slot : Nat)
    (hv : st.pool.valid.contains slot = true) :
    (releaseOrder st slot).pool = st.pool.pushFree slot := by
  unfold releaseOrder
  rw [hv]
  simp

theorem ingest_decomp (st : BookState) (id : Nat) (side : Side)
    (price qty disp display_size : Int) (type : OrderType) (ownerID : Nat)
    (stop_price : Int) (session_id : Nat) (a : Nat) (restA : List Nat)
    (hAvail : st.pool.available = a :: restA) :
    (ingest st id side price qty disp display_size type ownerID stop_price
        session_id).1 = a ∧
      (ingest st id side price qty disp display_size type ownerID stop_price
        session_id).2.bids = st.bids ∧
      (ingest st id side price qty disp display_size type ownerID stop_price
        session_id).2.asks = st.asks ∧
      (ingest st id side price qty disp display_size type ownerID stop_price
        session_id).2.orders = st.orders ∧
      (ingest st id side price qty disp display_size type ownerID stop_price
        session_id).2.stops = st.stops ∧
      (ingest st id side price qty disp display_size type ownerID stop_price
        session_id).2.pool =
        { st.pool with available := restA,
                       allocated := (st.pool.allocated + 1) % WORD } := by
  unfold ingest Pool.acquire
  simp only [hAvail]
  split_ifs <;> simp

/-- C2: (i) when the FOK probe cannot account for the full quantity
(`needed > 0`), `add_FOK_order` returns `false` leaving the state and trade
list untouched; (ii) when the probe succeeds, the commit emits exactly one
trade per recorded candidate with exactly the probe-promised quantities,
summing to the order's quantity; (iii) at the `add_order` level, a
risk-approved FOK whose probe fails returns no trades and leaves the bid and
ask books, the id index, the stop manager and the whole arena pool state
(valid set, free stack, allocated count) unchanged — the hypotheses ask only
that the pool has a free slot, that this slot was issued by the pool, and
that the allocated count is a representable `size_t`. -/
theorem C2_fok_probe_commit (st : BookState) (aggr : Nat) (tr : List ExecTrade)
    (fuel : Nat) (id ownerID session_id : Nat) (side : Side)
    (price qty disp display_size stop_price : Int) (a : Nat) (restA : List Nat) :
    (0 < (fokProbe st aggr).1 → add_FOK_order st aggr tr = (false, st, tr)) ∧
    (0 ≤ (storeGet st.store aggr).quantity → (fokProbe st aggr).1 ≤ 0 →
      ((add_FOK_order st aggr tr).2.2).map (fun t => t.quantity) =
          tr.map (fun t => t.quantity) ++ (fokProbe st aggr).2.map (fun c => c.2) ∧
        (((fokProbe st aggr).2).map (fun c => c.2)).sum =
          (storeGet st.store aggr).quantity) ∧
    (st.pool.available = a :: restA → st.pool.valid.contains a = true →
      st.pool.allocated < WORD →
      0 < (fokProbe (ingest st id side price qty disp display_size
            OrderType.FOK ownerID stop_price session_id).2
          (ingest st id side price qty disp display_size OrderType.FOK ownerID
            stop_price session_id).1).1 →
      (add_order fuel st id side price qty disp display_size OrderType.FOK
          ownerID stop_price session_id true).2 = [] ∧
        (add_order fuel st id side price qty disp display_size OrderType.FOK
          ownerID stop_price session_id true).1.bids = st.bids ∧
        (add_order fuel st id side price qty disp display_size OrderType.FOK
          ownerID stop_price session_id true).1.asks = st.asks ∧
        (add_order fuel st id side price qty disp display_size OrderType.FOK
          ownerID stop_price session_id true).1.orders = st.orders ∧
        (add_order fuel st id side price qty disp display_size OrderType.FOK
          ownerID stop_price session_id true).1.stops = st.stops ∧
        (add_order fuel st id side price qty disp display_size OrderType.FOK
          ownerID stop_price session_id true).1.pool = st.pool) := by
  have habort : ∀ (s : BookState) (g : Nat) (t : List ExecTrade),
      0 < (fokProbe s g).1 → add_FOK_order s g t = (false, s, t) := by
    intro s g t h
    simp only [add_FOK_order]
    rw [if_pos h]
  refine ⟨habort st aggr tr, ?_, ?_⟩
  · intro hq hle
    have hsum := fokLevels_sum st.store (storeGet st.store aggr).ownerID
      ((storeGet st.store aggr).side = Side.BUY) (storeGet st.store aggr).price
      (if (storeGet st.store aggr).side = Side.BUY then st.asks else st.bids)
      (storeGet st.store aggr).quantity []
    have hnn := fokLevels_nonneg st.store (storeGet st.store aggr).ownerID
      ((storeGet st.store aggr).side = Side.BUY) (storeGet st.store aggr).price
      (if (storeGet st.store aggr).side = Side.BUY then st.asks else st.bids)
      (storeGet st.store aggr).quantity [] hq
    have hprobe0 : (fokProbe st aggr).1 = 0 := by
      have : 0 ≤ (fokProbe st aggr).1 := by
        simpa [fokProbe] using hnn
      omega
    have hsum' : (((fokProbe st aggr).2).map (fun c => c.2)).sum =
        (storeGet st.store aggr).quantity := by
      have h2 : (fokProbe st aggr).1 +
          (((fokProbe st aggr).2).map (fun c => c.2)).sum =
          (storeGet st.store aggr).quantity := by
        simpa [fokProbe] using hsum
      omega
    refine ⟨?_, hsum'⟩
    have hnot : ¬ ((fokProbe st aggr).1 > 0) := by omega
    simp only [add_FOK_order, if_neg hnot]
    exact fokCommit_quantities aggr (fokProbe st aggr).2 st tr
  · intro hAvail hvalid halloc hprobe
    have hing := ingest_decomp st id side price qty disp display_size
      OrderType.FOK ownerID stop_price session_id a restA hAvail
    simp only [add_order]
    have hr := habort _ _ [] hprobe
    rw [hr]
    have e1 : ((true : Bool) = false) = False := by simp
    have e2 : (OrderType.FOK = OrderType.STOP_LOSS) = False := by simp
    have e3 : (OrderType.FOK = OrderType.FOK) = True := by simp
    have e4 : ((false : Bool) = true) = False := by simp
    simp only [e1, e2, e3, e4, if_false, if_true]
    have hv2 : (ingest st id side price qty disp display_size OrderType.FOK
        ownerID stop_price session_id).2.pool.valid.contains
        (ingest st id side price qty disp display_size OrderType.FOK ownerID
          stop_price session_id).1 = true := by
      rw [hing.2.2.2.2.2, hing.1]
      exact hvalid
    have hrel := releaseOrder_pool _ _ hv2
    have hrelf := releaseOrder_fields
      (ingest st id side price qty disp display_size OrderType.FOK ownerID
        stop_price session_id).2
      (ingest st id side price qty disp display_size OrderType.FOK ownerID
        stop_price session_id).1
    simp only [process_triggered_stops, List.isEmpty_nil, if_true]
    refine ⟨trivial, ?_, ?_, ?_, ?_, ?_⟩
    · rw [hrelf.1, hing.2.1]
    · rw [hrelf.2.1, hing.2.2.1]
    · rw [hrelf.2.2.1, hing.2.2.2.1]
    · rw [hrelf.2.2.2, hing.2.2.2.2.1]
    · rw [hrel, hing.2.2.2.2.2, hing.1]
      simp only [Pool.pushFree]
      have hA : a :: restA = st.pool.available := hAvail.symm
      have hAl : ((st.pool.allocated + 1) % WORD + (WORD - 1)) % WORD =
          st.pool.allocated := by
        simp only [WORD] at halloc ⊢
        omega
      rw [hA, hAl]

def fokAsk : Order :=
  { zeroedOrder with id := 5, side := Side.SELL, price := 100, display := 10,
                     ownerID := 2 }

def fokAggr : Order :=
  { zeroedOrder with id := 9, side := Side.BUY, price := 100, quantity := 10,
                     display := 10, type := OrderType.FOK, ownerID := 1 }

def fokSt : BookState :=
  { bids := [], asks := [(100, ⟨[], [1]⟩)], orders := [(5, 1)],
    store := [(0, fokAggr), (1, fokAsk)],
    pool := { valid := [0, 1], available := [], allocated := 2, nextFresh := 2 },
    stops := { buy_stops := [], sell_stops := [], stop_lookup := [] },
    processing_stops := [], stop_cascade_depth := 0, stats := zeroStats }

def fokEmptySt : BookState :=
  { emptyBook with store := [(0, fokAggr)] }

/-- C2 witness: conjunct (i) evaluated on an FOK BUY of quantity 10 against
an empty book, conjunct (ii) on a book with exactly matching ask liquidity,
conjunct (iii) on the full `add_order` call against the empty book. -/
theorem C2_fok_probe_commit_witness :
    add_FOK_order fokEmptySt 0 [] = (false, fokEmptySt, []) ∧
      (((add_FOK_order fokSt 0 []).2.2).map (fun t => t.quantity) =
          ([] : List ExecTrade).map (fun t => t.quantity) ++
            (fokProbe fokSt 0).2.map (fun c => c.2) ∧
        (((fokProbe fokSt 0).2).map (fun c => c.2)).sum =
          (storeGet fokSt.store 0).quantity) ∧
      ((add_order 20 emptyBook 9 Side.BUY 100 10 10 0 OrderType.FOK 1 0 0
          true).2 = [] ∧
        (add_order 20 emptyBook 9 Side.BUY 100 10 10 0 OrderType.FOK 1 0 0
          true).1.bids = emptyBook.bids ∧
        (add_order 20 emptyBook 9 Side.BUY 100 10 10 0 OrderType.FOK 1 0 0
          true).1.asks = emptyBook.asks ∧
        (add_order 20 emptyBook 9 Side.BUY 100 10 10 0 OrderType.FOK 1 0 0
          true).1.orders = emptyBook.orders ∧
        (add_order 20 emptyBook 9 Side.BUY 100 10 10 0 OrderType.FOK 1 0 0
          true).1.stops = emptyBook.stops ∧
        (add_order 20 emptyBook 9 Side.BUY 100 10 10 0 OrderType.FOK 1 0 0
          true).1.pool = emptyBook.pool) :=
  ⟨(C2_fok_probe_commit fokEmptySt 0 [] 0 0 0 0 Side.BUY 0 0 0 0 0 0 []).1
     (by decide),
   (C2_fok_probe_commit fokSt 0 [] 0 0 0 0 Side.BUY 0 0 0 0 0 0 []).2.1
     (by decide) (by decide),
   (C2_fok_probe_commit emptyBook 0 [] 20 9 1 0 Side.BUY 100 10 10 0 0 0
      [1, 2, 3, 4, 5, 6, 7, 8, 9]).2.2
     (by decide) (by decide) (by decide) (by decide)⟩

/-! ## C7

Every trade-emitting site in the matching code is guarded by an owner
comparison (directly in the limit/market loops; via the probe's skip in the
FOK path), so every emitted trade names two distinct owners; and the
self-trade branches pop the same-owner passive, erase its id-index entry and
release its slot without emitting a trade, then continue the loop. -/

/-- Every trade in the list names two distinct owner ids. -/
def TradesOwnersDistinct (tr : List ExecTrade) : Prop :=
  ∀ t ∈ tr, t.buyOwner ≠ t.sellOwner

theorem execute_trade_owners (a p : Order) (q : Int)
    (h : a.ownerID ≠ p.ownerID) :
    (execute_trade a p q).buyOwner ≠ (execute_trade a p q).sellOwner := by
  cases ha : a.side <;> simp [execute_trade, ha] <;> first | exact h | exact fun e => h e.symm

theorem tradesOwnersDistinct_append (t1 t2 : List ExecTrade)
    (h1 : TradesOwnersDistinct t1) (h2 : TradesOwnersDistinct t2) :
    TradesOwnersDistinct (t1 ++ t2) := by
  intro t ht
  rcases List.mem_append.mp ht with h | h
  · exact h1 t h
  · exact h2 t h

theorem limitInner_owners (isBuy : Bool) (aggr : Nat) (bestPrice : Int) :
    ∀ (fuel : Nat) (st : BookState) (tr : List ExecTrade),
      TradesOwnersDistinct tr →
      TradesOwnersDistinct (limitInner fuel isBuy aggr bestPrice st tr).2 := by
  intro fuel
  induction fuel with
  | zero => intro st tr h; exact h
  | succ n ih =>
    intro st tr h
    rw [limitInner]
    split
    · split
      · exact h
      · rename_i pslot heq
        by_cases hown : (storeGet st.store aggr).ownerID =
            (storeGet st.store pslot).ownerID
        · rw [if_pos hown]
          exact ih _ _ h
        · rw [if_neg hown]
          dsimp only
          split
          · apply ih
            apply tradesOwnersDistinct_append _ _ h
            intro t ht
            rcases List.mem_singleton.mp ht with rfl
            exact execute_trade_owners _ _ _ hown
          · apply ih
            apply tradesOwnersDistinct_append _ _ h
            intro t ht
            rcases List.mem_singleton.mp ht with rfl
            exact execute_trade_owners _ _ _ hown
    · exact h

theorem limitOuter_owners (isBuy : Bool) (aggr : Nat) (rawPrice : Int) :
    ∀ (fuel : Nat) (st : BookState) (tr : List ExecTrade),
      TradesOwnersDistinct tr →
      TradesOwnersDistinct (limitOuter fuel isBuy aggr rawPrice st tr).2 := by
  intro fuel
  induction fuel with
  | zero => intro st tr h; exact h
  | succ n ih =>
    intro st tr h
    rw [limitOuter]
    split
    · exact h
    · split
      · dsimp only
        split
        · split
          · exact h
          · exact ih _ _ (limitInner_owners isBuy aggr _ n st tr h)
        · split
          · exact h
          · exact ih _ _ (limitInner_owners isBuy aggr _ n st tr h)
      · exact h

theorem marketInner_owners (isBuy : Bool) (aggr : Nat) (bestPrice : Int) :
    ∀ (fuel : Nat) (st : BookState) (tr : List ExecTrade),
      TradesOwnersDistinct tr →
      TradesOwnersDistinct (marketInner fuel isBuy aggr bestPrice st tr).2 := by
  intro fuel
  induction fuel with
  | zero => intro st tr h; exact h
  | succ n ih =>
    intro st tr h
    rw [marketInner]
    split
    · split
      · exact h
      · rename_i pslot heq
        by_cases hown : (storeGet st.store aggr).ownerID =
            (storeGet st.store pslot).ownerID
        · rw [if_pos hown]
          exact ih _ _ h
        · rw [if_neg hown]
          dsimp only
          split
          · apply ih
            apply tradesOwnersDistinct_append _ _ h
            intro t ht
            rcases List.mem_singleton.mp ht with rfl
            exact execute_trade_owners _ _ _ hown
          · apply ih
            apply tradesOwnersDistinct_append _ _ h
            intro t ht
            rcases List.mem_singleton.mp ht with rfl
            exact execute_trade_owners _ _ _ hown
    · exact h

theorem marketOuter_owners (isBuy : Bool) (aggr : Nat) :
    ∀ (fuel : Nat) (st : BookState) (tr : List ExecTrade),
      TradesOwnersDistinct tr →
      TradesOwnersDistinct (marketOuter fuel isBuy aggr st tr).2 := by
  intro fuel
  induction fuel with
  | zero => intro st tr h; exact h
  | succ n ih =>
    intro st tr h
    rw [marketOuter]
    split
    · exact h
    · split
      · exact ih _ _ (marketInner_owners isBuy aggr _ n st tr h)
      · exact h

theorem add_market_order_owners (fuel : Nat) (aggr : Nat) (st : BookState)
    (tr : List ExecTrade) (h : TradesOwnersDistinct tr) :
    TradesOwnersDistinct (add_market_order fuel aggr st tr).2 :=
  marketOuter_owners _ aggr fuel st tr h

theorem processOneStop_owners (fuel : Nat) (acc : BookState × List ExecTrade)
    (slot : Nat) (h : TradesOwnersDistinct acc.2) :
    TradesOwnersDistinct (processOneStop fuel acc slot).2 := by
  rw [processOneStop]
  split
  · exact h
  · dsimp only
    apply tradesOwnersDistinct_append _ _ h
    apply add_market_order_owners
    intro t ht
    simp at ht

theorem foldl_processOneStop_owners (fuel : Nat) :
    ∀ (slots : List Nat) (acc : BookState × List ExecTrade),
      TradesOwnersDistinct acc.2 →
      TradesOwnersDistinct (slots.foldl (processOneStop fuel) acc).2 := by
  intro slots
  induction slots with
  | nil => intro acc h; exact h
  | cons s rest ih =>
    intro acc h
    rw [List.foldl_cons]
    exact ih _ (processOneStop_owners fuel acc s h)

theorem process_triggered_stops_owners (fuel : Nat) (st : BookState)
    (tr : List ExecTrade) (h : TradesOwnersDistinct tr) :
    TradesOwnersDistinct (process_triggered_stops fuel st tr).2 := by
  rw [process_triggered_stops]
  split
  · exact h
  · dsimp only
    split
    · exact h
    · exact foldl_processOneStop_owners fuel _ _ h

theorem storeGet_storeSet_owner (store : List (Nat × Order)) (slot : Nat)
    (o : Order) (s : Nat) (h : o.ownerID = (storeGet store slot).ownerID) :
    (storeGet (storeSet store slot o) s).ownerID = (storeGet store s).ownerID := by
  by_cases hs : s = slot
  · subst hs
    rw [storeGet_storeSet_self, h]
  · rw [storeGet_storeSet_ne _ _ _ _ hs]

theorem releaseOrder_store_other (st : BookState) (slot s : Nat) (h : s ≠ slot) :
    storeGet (releaseOrder st slot).store s = storeGet st.store s := by
  unfold releaseOrder
  split
  · exact storeGet_storeSet_ne _ _ _ _ h
  · rfl

theorem refill_store_other (store : List (Nat × Order)) (slot : Nat)
    (lvl : PriceLevel) (s : Nat) (h : s ≠ slot) :
    storeGet (handle_iceberg_refill store slot lvl).2.1 s = storeGet store s := by
  by_cases hc : (storeGet store slot).type = OrderType.ICEBERG ∧
      (storeGet store slot).remaining > 0
  · simp only [handle_iceberg_refill, if_pos hc]
    exact storeGet_storeSet_ne _ _ _ _ h
  · simp only [handle_iceberg_refill, if_neg hc]

theorem fokCommitStep_store_other (aggr : Nat) (st : BookState)
    (tr : List ExecTrade) (c : Nat × Int) (s : Nat) (hs : s ≠ c.1)
    (hA : s ≠ aggr) :
    storeGet (fokCommitStep aggr st tr c).1.store s = storeGet st.store s := by
  simp only [fokCommitStep]
  split_ifs <;>
    simp only [releaseOrder_store_other _ _ _ hs, refill_store_other _ _ _ _ hs,
      storeGet_storeSet_ne _ _ _ _ hs, storeGet_storeSet_ne _ _ _ _ hA]

theorem fokCommitStep_aggr_owner (aggr : Nat) (st : BookState)
    (tr : List ExecTrade) (c : Nat × Int) (haggr : aggr ≠ c.1) :
    (storeGet (fokCommitStep aggr st tr c).1.store aggr).ownerID =
      (storeGet st.store aggr).ownerID := by
  simp only [fokCommitStep]
  split_ifs <;>
    simp only [releaseOrder_store_other _ _ _ haggr,
      refill_store_other _ _ _ _ haggr, storeGet_storeSet_self,
      storeGet_storeSet_ne _ _ _ _ haggr]

theorem fokCommitStep_owner_preserved (aggr : Nat) (st : BookState)
    (tr : List ExecTrade) (c : Nat × Int) (s : Nat) (hs : s ≠ c.1) :
    (storeGet (fokCommitStep aggr st tr c).1.store s).ownerID =
      (storeGet st.store s).ownerID := by
  by_cases hA : s = aggr
  · subst hA
    exact fokCommitStep_aggr_owner s st tr c hs
  · rw [fokCommitStep_store_other aggr st tr c s hs hA]

/-- All slots resting on a book's levels, in probe traversal order. -/
def bookSlots (book : List (Int × PriceLevel)) : List Nat :=
  (book.map (fun e => e.2.mm_orders ++ e.2.regular_orders)).flatten

theorem fokScan_cands (store : List (Nat × Order)) (owner : Nat) :
    ∀ (dq : List Nat) (needed : Int) (cands : List (Nat × Int)),
      ∃ d, (fokScan store owner dq needed cands).2.2 = cands ++ d ∧
        (d.map Prod.fst).Sublist dq ∧
        ∀ c ∈ d, (storeGet store c.1).ownerID ≠ owner := by
  intro dq
  induction dq with
  | nil =>
    intro needed cands
    exact ⟨[], by simp [fokScan]⟩
  | cons slot rest ih =>
    intro needed cands
    simp only [fokScan]
    by_cases hown : owner = (storeGet store slot).ownerID
    · simp only [if_pos hown]
      obtain ⟨d, hd1, hd2, hd3⟩ := ih needed cands
      exact ⟨d, hd1, hd2.cons slot, hd3⟩
    · simp only [if_neg hown]
      by_cases hle : needed - min needed (storeGet store slot).display ≤ 0
      · simp only [if_pos hle]
        refine ⟨[(slot, min needed (storeGet store slot).display)], rfl, ?_, ?_⟩
        · simp
        · intro c hc
          rcases List.mem_singleton.mp hc with rfl
          exact fun e => hown e.symm
      · simp only [if_neg hle]
        obtain ⟨d, hd1, hd2, hd3⟩ := ih
          (needed - min needed (storeGet store slot).display)
          (cands ++ [(slot, min needed (storeGet store slot).display)])
        refine ⟨(slot, min needed (storeGet store slot).display) :: d, ?_, ?_, ?_⟩
        · rw [hd1]
          simp
        · simpa using hd2.cons₂ slot
        · intro c hc
          rcases List.mem_cons.mp hc with rfl | hc
          · exact fun e => hown e.symm
          · exact hd3 c hc

theorem fokLevels_cands (store : List (Nat × Order)) (owner : Nat)
    (isBuy : Bool) (limitPrice : Int) :
    ∀ (book : List (Int × PriceLevel)) (needed : Int) (cands : List (Nat × Int)),
      ∃ d, (fokLevels store owner isBuy limitPrice book needed cands).2 =
          cands ++ d ∧
        (d.map Prod.fst).Sublist (bookSlots book) ∧
        ∀ c ∈ d, (storeGet store c.1).ownerID ≠ owner := by
  intro book
  induction book with
  | nil =>
    intro needed cands
    exact ⟨[], by simp [fokLevels]⟩
  | cons e rest ih =>
    intro needed cands
    rw [fokLevels]
    have hbs : bookSlots (e :: rest) =
        (e.2.mm_orders ++ e.2.regular_orders) ++ bookSlots rest := by
      simp [bookSlots]
    by_cases hbreak : (if isBuy then limitPrice < e.1 else e.1 < limitPrice)
    · simp only [if_pos hbreak]
      exact ⟨[], by simp⟩
    · simp only [if_neg hbreak]
      obtain ⟨d1, hd11, hd12, hd13⟩ := fokScan_cands store owner
        e.2.mm_orders needed cands
      by_cases hc : (fokScan store owner e.2.mm_orders needed cands).1 = false ∧
          (fokScan store owner e.2.mm_orders needed cands).2.1 > 0
      · simp only [if_pos hc]
        obtain ⟨d2, hd21, hd22, hd23⟩ := fokScan_cands store owner
          e.2.regular_orders (fokScan store owner e.2.mm_orders needed cands).2.1
          (fokScan store owner e.2.mm_orders needed cands).2.2
        by_cases hend : (fokScan store owner e.2.regular_orders
            (fokScan store owner e.2.mm_orders needed cands).2.1
            (fokScan store owner e.2.mm_orders needed cands).2.2).2.1 ≤ 0
        · simp only [if_pos hend]
          refine ⟨d1 ++ d2, ?_, ?_, ?_⟩
          · rw [hd21, hd11, List.append_assoc]
          · rw [hbs, List.map_append]
            exact (hd12.append hd22).trans (List.sublist_append_left _ _)
          · intro c hcm
            rcases List.mem_append.mp hcm with h | h
            · exact hd13 c h
            · exact hd23 c h
        · simp only [if_neg hend]
          obtain ⟨d3, hd31, hd32, hd33⟩ := ih
            (fokScan store owner e.2.regular_orders
              (fokScan store owner e.2.mm_orders needed cands).2.1
              (fokScan store owner e.2.mm_orders needed cands).2.2).2.1
            (fokScan store owner e.2.regular_orders
              (fokScan store owner e.2.mm_orders needed cands).2.1
              (fokScan store owner e.2.mm_orders needed cands).2.2).2.2
          refine ⟨d1 ++ d2 ++ d3, ?_, ?_, ?_⟩
          · rw [hd31, hd21, hd11]
            simp [List.append_assoc]
          · rw [hbs]
            simp only [List.map_append]
            exact (hd12.append hd22).append hd32
          · intro c hcm
            rcases List.mem_append.mp hcm with h | h
            · rcases List.mem_append.mp h with h2 | h2
              · exact hd13 c h2
              · exact hd23 c h2
            · exact hd33 c h
      · simp only [if_neg hc]
        by_cases hend : (fokScan store owner e.2.mm_orders needed cands).2.1 ≤ 0
        · simp only [if_pos hend]
          refine ⟨d1, hd11, ?_, hd13⟩
          rw [hbs]
          exact (hd12.trans (List.sublist_append_left _ _)).trans
            (List.sublist_append_left _ _)
        · simp only [if_neg hend]
          obtain ⟨d3, hd31, hd32, hd33⟩ := ih
            (fokScan store owner e.2.mm_orders needed cands).2.1
            (fokScan store owner e.2.mm_orders needed cands).2.2
          refine ⟨d1 ++ d3, ?_, ?_, ?_⟩
          · rw [hd31, hd11, List.append_assoc]
          · rw [hbs, List.map_append]
            exact List.Sublist.append
              (hd12.trans (List.sublist_append_left _ _)) hd32
          · intro c hcm
            rcases List.mem_append.mp hcm with h | h
            · exact hd13 c h
            · exact hd33 c h

theorem fokCommit_owners (aggr : Nat) :
    ∀ (cands : List (Nat × Int)) (st : BookState) (tr : List ExecTrade),
      (cands.map Prod.fst).Nodup →
      aggr ∉ cands.map Prod.fst →
      (∀ c ∈ cands, (storeGet st.store c.1).ownerID ≠
        (storeGet st.store aggr).ownerID) →
      TradesOwnersDistinct tr →
      TradesOwnersDistinct
        ((cands.foldl (fun acc c => fokCommitStep aggr acc.1 acc.2 c)
          (st, tr)).2) := by
  intro cands
  induction cands with
  | nil => intro st tr _ _ _ h; exact h
  | cons c cs ih =>
    intro st tr hnd hag hown h
    simp only [List.map_cons] at hnd
    rcases List.nodup_cons.mp hnd with ⟨hc1, hnd'⟩
    have hagc : aggr ≠ c.1 := by
      intro e
      exact hag (by simp [e])
    have hag' : aggr ∉ cs.map Prod.fst := by
      intro e
      exact hag (by simp [e])
    rw [List.foldl_cons]
    rw [← Prod.mk.eta (p := fokCommitStep aggr st tr c)]
    apply ih
    · exact hnd'
    · exact hag'
    · intro c' hc'
      have hne : c'.1 ≠ c.1 := by
        intro e
        exact hc1 (e ▸ List.mem_map_of_mem Prod.fst hc')
      rw [fokCommitStep_owner_preserved aggr st tr c c'.1 hne,
        fokCommitStep_aggr_owner aggr st tr c hagc]
      exact hown c' (List.mem_cons_of_mem c hc')
    · rw [fokCommitStep_trades]
      apply tradesOwnersDistinct_append _ _ h
      intro t ht
      rcases List.mem_singleton.mp ht with rfl
      apply execute_trade_owners
      intro e
      exact hown c (List.mem_cons_self c cs) e.symm

theorem add_FOK_order_owners (st : BookState) (aggr : Nat) (tr : List ExecTrade)
    (hnd : (bookSlots (if (storeGet st.store aggr).side = Side.BUY then st.asks
      else st.bids)).Nodup)
    (hag : aggr ∉ bookSlots (if (storeGet st.store aggr).side = Side.BUY then
      st.asks else st.bids))
    (h : TradesOwnersDistinct tr) :
    TradesOwnersDistinct ((add_FOK_order st aggr tr).2.2) := by
  rw [add_FOK_order]
  by_cases hfail : (fokProbe st aggr).1 > 0
  · rw [if_pos hfail]
    exact h
  · rw [if_neg hfail]
    obtain ⟨d, hd1, hd2, hd3⟩ := fokLevels_cands st.store
      (storeGet st.store aggr).ownerID
      ((storeGet st.store aggr).side = Side.BUY)
      (storeGet st.store aggr).price
      (if (storeGet st.store aggr).side = Side.BUY then st.asks else st.bids)
      (storeGet st.store aggr).quantity []
    have hpr : (fokProbe st aggr).2 = d := by
      simp only [fokProbe]
      rw [hd1]
      simp
    dsimp only
    rw [hpr]
    apply fokCommit_owners
    · exact (hd2.nodup hnd)
    · intro e
      exact hag (hd2.mem e)
    · intro c hc
      exact hd3 c hc
    · exact h

theorem tradesOwnersDistinct_nil : TradesOwnersDistinct [] := by
  intro t ht
  simp at ht

theorem add_order_owners (fuel : Nat) (st : BookState) (id : Nat) (side : Side)
    (price qty disp display_size : Int) (type : OrderType) (ownerID : Nat)
    (stop_price : Int) (session_id : Nat) (risk : Bool)
    (htype : type ≠ OrderType.FOK) :
    TradesOwnersDistinct ((add_order fuel st id side price qty disp
      display_size type ownerID stop_price session_id risk).2) := by
  rw [add_order]
  dsimp only
  by_cases hr : risk = false
  · rw [if_pos hr]
    exact tradesOwnersDistinct_nil
  · rw [if_neg hr]
    cases type with
    | FOK => exact absurd rfl htype
    | STOP_LOSS =>
      rw [if_pos rfl]
      exact tradesOwnersDistinct_nil
    | MARKET =>
      rw [if_neg (by decide), if_neg (by decide), if_pos rfl]
      apply process_triggered_stops_owners
      exact add_market_order_owners _ _ _ _ tradesOwnersDistinct_nil
    | GTC =>
      rw [if_neg (by decide), if_neg (by decide), if_neg (by decide)]
      apply process_triggered_stops_owners
      exact limitOuter_owners _ _ _ _ _ _ tradesOwnersDistinct_nil
    | IOC =>
      rw [if_neg (by decide), if_neg (by decide), if_neg (by decide)]
      apply process_triggered_stops_owners
      exact limitOuter_owners _ _ _ _ _ _ tradesOwnersDistinct_nil
    | ICEBERG =>
      rw [if_neg (by decide), if_neg (by decide), if_neg (by decide)]
      apply process_triggered_stops_owners
      exact limitOuter_owners _ _ _ _ _ _ tradesOwnersDistinct_nil

theorem limitInner_self_trade_step (fuel : Nat) (isBuy : Bool)
    (aggr : Nat) (bestPrice : Int) (st : BookState) (tr : List ExecTrade)
    (pslot : Nat)
    (hd : (storeGet st.store aggr).display > 0)
    (he : ((levelFind (oppBook st isBuy) bestPrice).getD levelDefault).empty = false)
    (hf : ((levelFind (oppBook st isBuy) bestPrice).getD levelDefault).front? = some pslot)
    (hown : (storeGet st.store aggr).ownerID = (storeGet st.store pslot).ownerID) :
    limitInner (fuel + 1) isBuy aggr bestPrice st tr =
      limitInner fuel isBuy aggr bestPrice
        ((cancel_order
          (setOppBook st isBuy (levelSet (oppBook st isBuy) bestPrice
            ((levelFind (oppBook st isBuy) bestPrice).getD levelDefault).pop_front))
          (storeGet st.store pslot).id).2) tr := by
  rw [limitInner]
  rw [if_pos ⟨hd, he⟩]
  rw [hf]
  dsimp only
  rw [if_pos hown]

theorem marketInner_self_trade_step (fuel : Nat) (isBuy : Bool)
    (aggr : Nat) (bestPrice : Int) (st : BookState) (tr : List ExecTrade)
    (pslot : Nat)
    (hd : (storeGet st.store aggr).display > 0)
    (he : ((levelFind (oppBook st isBuy) bestPrice).getD levelDefault).empty = false)
    (hf : ((levelFind (oppBook st isBuy) bestPrice).getD levelDefault).front? = some pslot)
    (hown : (storeGet st.store aggr).ownerID = (storeGet st.store pslot).ownerID) :
    marketInner (fuel + 1) isBuy aggr bestPrice st tr =
      marketInner fuel isBuy aggr bestPrice
        (releaseOrder
          { setOppBook st isBuy (levelSet (oppBook st isBuy) bestPrice
              ((levelFind (oppBook st isBuy) bestPrice).getD levelDefault).pop_front) with
            orders := assocErase
              (setOppBook st isBuy (levelSet (oppBook st isBuy) bestPrice
                ((levelFind (oppBook st isBuy) bestPrice).getD levelDefault).pop_front)).orders
              (storeGet st.store pslot).id }
          pslot) tr := by
  rw [marketInner]
  rw [if_pos ⟨hd, he⟩]
  rw [hf]
  dsimp only
  rw [if_pos hown]

theorem releaseOrder_store_self (st : BookState) (slot : Nat)
    (hv : st.pool.valid.contains slot = true) :
    storeGet (releaseOrder st slot).store slot =
      reset_order (storeGet st.store slot) := by
  unfold releaseOrder
  rw [hv]
  simp only [if_true]
  exact storeGet_storeSet_self _ _ _

theorem cancel_order_resting (st : BookState) (id slot : Nat)
    (hfind : assocFind st.orders id = some slot)
    (htype : (storeGet st.store slot).type ≠ OrderType.STOP_LOSS)
    (hv : st.pool.valid.contains slot = true) :
    (cancel_order st id).1 = true ∧
      (cancel_order st id).2.orders = assocErase st.orders id ∧
      (cancel_order st id).2.pool = st.pool.pushFree slot ∧
      storeGet (cancel_order st id).2.store slot =
        reset_order (storeGet st.store slot) := by
  rw [cancel_order]
  rw [hfind]
  dsimp only
  rw [if_neg htype]
  split
  · split
    · exact ⟨rfl, (releaseOrder_fields _ _).2.2.1,
        releaseOrder_pool _ _ hv, releaseOrder_store_self _ _ hv⟩
    · split <;>
        exact ⟨rfl, (releaseOrder_fields _ _).2.2.1,
          releaseOrder_pool _ _ hv, releaseOrder_store_self _ _ hv⟩
  · split
    · exact ⟨rfl, (releaseOrder_fields _ _).2.2.1,
        releaseOrder_pool _ _ hv, releaseOrder_store_self _ _ hv⟩
    · split <;>
        exact ⟨rfl, (releaseOrder_fields _ _).2.2.1,
          releaseOrder_pool _ _ hv, releaseOrder_store_self _ _ hv⟩

/-- C7: (i) every trade emitted by a non-FOK `add_order` (limit cross-match,
market matching, and any stop-cascade trades it provokes) has distinct buyer
and seller owner ids; (ii) so does every trade emitted by `add_FOK_order`,
for any book whose resting slot lists are duplicate-free and do not contain
the incoming order's slot; (iii)/(iv) in the limit and market inner loops,
when the front passive order has the incoming order's own owner id, the
passive is popped from its level, erased from the id index and released
(via `cancel_order` in the limit loop, directly in the market loop), NO
trade is appended, and matching continues with the next passive; (v)
`cancel_order` on a resting order indeed reports success, removes the id
from the index, pushes the slot back to the pool and zeroes it. -/
theorem C7_self_trade_prevention :
    (∀ (fuel : Nat) (st : BookState) (id : Nat) (side : Side)
        (price qty disp display_size : Int) (type : OrderType) (ownerID : Nat)
        (stop_price : Int) (session_id : Nat) (risk : Bool),
        type ≠ OrderType.FOK →
        TradesOwnersDistinct ((add_order fuel st id side price qty disp
          display_size type ownerID stop_price session_id risk).2)) ∧
    (∀ (st : BookState) (aggr : Nat) (tr : List ExecTrade),
        (bookSlots (if (storeGet st.store aggr).side = Side.BUY then st.asks
          else st.bids)).Nodup →
        aggr ∉ bookSlots (if (storeGet st.store aggr).side = Side.BUY then
          st.asks else st.bids) →
        TradesOwnersDistinct tr →
        TradesOwnersDistinct ((add_FOK_order st aggr tr).2.2)) ∧
    (∀ (fuel : Nat) (isBuy : Bool) (aggr : Nat) (bestPrice : Int)
        (st : BookState) (tr : List ExecTrade) (pslot : Nat),
        (storeGet st.store aggr).display > 0 →
        ((levelFind (oppBook st isBuy) bestPrice).getD levelDefault).empty = false →
        ((levelFind (oppBook st isBuy) bestPrice).getD levelDefault).front? = some pslot →
        (storeGet st.store aggr).ownerID = (storeGet st.store pslot).ownerID →
        limitInner (fuel + 1) isBuy aggr bestPrice st tr =
          limitInner fuel isBuy aggr bestPrice
            ((cancel_order
              (setOppBook st isBuy (levelSet (oppBook st isBuy) bestPrice
                ((levelFind (oppBook st isBuy) bestPrice).getD levelDefault).pop_front))
              (storeGet st.store pslot).id).2) tr) ∧
    (∀ (fuel : Nat) (isBuy : Bool) (aggr : Nat) (bestPrice : Int)
        (st : BookState) (tr : List ExecTrade) (pslot : Nat),
        (storeGet st.store aggr).display > 0 →
        ((levelFind (oppBook st isBuy) bestPrice).getD levelDefault).empty = false →
        ((levelFind (oppBook st isBuy) bestPrice).getD levelDefault).front? = some pslot →
        (storeGet st.store aggr).ownerID = (storeGet st.store pslot).ownerID →
        marketInner (fuel + 1) isBuy aggr bestPrice st tr =
          marketInner fuel isBuy aggr bestPrice
            (releaseOrder
              { setOppBook st isBuy (levelSet (oppBook st isBuy) bestPrice
                  ((levelFind (oppBook st isBuy) bestPrice).getD levelDefault).pop_front) with
                orders := assocErase
                  (setOppBook st isBuy (levelSet (oppBook st isBuy) bestPrice
                    ((levelFind (oppBook st isBuy) bestPrice).getD levelDefault).pop_front)).orders
                  (storeGet st.store pslot).id }
              pslot) tr) ∧
    (∀ (st : BookState) (id slot : Nat),
        assocFind st.orders id = some slot →
        (storeGet st.store slot).type ≠ OrderType.STOP_LOSS →
        st.pool.valid.contains slot = true →
        (cancel_order st id).1 = true ∧
          (cancel_order st id).2.orders = assocErase st.orders id ∧
          (cancel_order st id).2.pool = st.pool.pushFree slot ∧
          storeGet (cancel_order st id).2.store slot =
            reset_order (storeGet st.store slot)) :=
  ⟨fun fuel st id side price qty disp display_size type ownerID stop_price
      session_id risk h =>
    add_order_owners fuel st id side price qty disp display_size type ownerID
      stop_price session_id risk h,
   fun st aggr tr h1 h2 h3 => add_FOK_order_owners st aggr tr h1 h2 h3,
   fun fuel isBuy aggr bestPrice st tr pslot h1 h2 h3 h4 =>
     limitInner_self_trade_step fuel isBuy aggr bestPrice st tr pslot h1 h2 h3 h4,
   fun fuel isBuy aggr bestPrice st tr pslot h1 h2 h3 h4 =>
     marketInner_self_trade_step fuel isBuy aggr bestPrice st tr pslot h1 h2 h3 h4,
   fun st id slot h1 h2 h3 => cancel_order_resting st id slot h1 h2 h3⟩

def selfAggr : Order :=
  { zeroedOrder with id := 9, side := Side.BUY, price := 100, quantity := 10,
                     display := 10, ownerID := 7 }

def selfPassive : Order :=
  { zeroedOrder with id := 5, side := Side.SELL, price := 100, display := 10,
                     ownerID := 7 }

def stSelf : BookState :=
  { bids := [], asks := [(100, ⟨[], [1]⟩)], orders := [(5, 1)],
    store := [(0, selfAggr), (1, selfPassive)],
    pool := { valid := [0, 1], available := [], allocated := 2, nextFresh := 2 },
    stops := { buy_stops := [], sell_stops := [], stop_lookup := [] },
    processing_stops := [], stop_cascade_depth := 0, stats := zeroStats }

/-- C7 witness: the five conjuncts instantiated — a GTC cross on the empty
book, the FOK book `fokSt`, and a book `stSelf` whose best ask is owned by
the incoming buyer (owner 7 on both sides). -/
theorem C7_self_trade_prevention_witness :
    TradesOwnersDistinct ((add_order 20 emptyBook 1 Side.BUY 100 10 10 0
        OrderType.GTC 1 0 0 true).2) ∧
      TradesOwnersDistinct ((add_FOK_order fokSt 0 []).2.2) ∧
      limitInner (5 + 1) true 0 100 stSelf [] =
        limitInner 5 true 0 100
          ((cancel_order
            (setOppBook stSelf true (levelSet (oppBook stSelf true) 100
              ((levelFind (oppBook stSelf true) 100).getD levelDefault).pop_front))
            (storeGet stSelf.store 1).id).2) [] ∧
      marketInner (5 + 1) true 0 100 stSelf [] =
        marketInner 5 true 0 100
          (releaseOrder
            { setOppBook stSelf true (levelSet (oppBook stSelf true) 100
                ((levelFind (oppBook stSelf true) 100).getD levelDefault).pop_front) with
              orders := assocErase
                (setOppBook stSelf true (levelSet (oppBook stSelf true) 100
                  ((levelFind (oppBook stSelf true) 100).getD levelDefault).pop_front)).orders
                (storeGet stSelf.store 1).id }
            1) [] ∧
      ((cancel_order stSelf 5).1 = true ∧
        (cancel_order stSelf 5).2.orders = assocErase stSelf.orders 5 ∧
        (cancel_order stSelf 5).2.pool = stSelf.pool.pushFree 1 ∧
        storeGet (cancel_order stSelf 5).2.store 1 =
          reset_order (storeGet stSelf.store 1)) :=
  ⟨C7_self_trade_prevention.1 20 emptyBook 1 Side.BUY 100 10 10 0
      OrderType.GTC 1 0 0 true (by decide),
   C7_self_trade_prevention.2.1 fokSt 0 [] (by decide) (by decide)
     tradesOwnersDistinct_nil,
   C7_self_trade_prevention.2.2.1 5 true 0 100 stSelf [] 1 (by decide)
     (by decide) (by decide) (by decide),
   C7_self_trade_prevention.2.2.2.1 5 true 0 100 stSelf [] 1 (by decide)
     (by decide) (by decide) (by decide),
   C7_self_trade_prevention.2.2.2.2 stSelf 5 1 (by decide) (by decide)
     (by decide)⟩
